import Mathlib

/-
Shallow embedding of the SVG path-data interpreter of the SVG-renderer
repository (src/scripts/path_parser.py and the inline interpreter in
src/scripts/renderer.py, Renderer.draw_path).

Modelling conventions:
* Python floats are modelled as exact real numbers; numeric literal tokens
  keep their decimal digit structure so that Python's float()/int()
  conversions can be modelled faithfully (int() rejects literals that
  contain a decimal point).
* Python exceptions are modelled by an explicit error type; every list
  pop, float()/int() conversion, membership test on None, and float
  division is checked exactly where the source performs it.
* The interpreter loop (while self.commands: ... pop(0) ...) is modelled
  with a fuel parameter equal to the token-list length; every iteration
  consumes at least the head token, so that fuel never runs out (the
  dedicated out-of-fuel error is unreachable from the top-level entry
  points).
-/

namespace SVG

/-- Python exceptions the interpreter can raise (IndexError from pop(0) on
an empty list or points[0] on an empty list; ValueError from float()/int()
on an unsuitable string; TypeError from membership tests or subscripts on
None; ZeroDivisionError from float division by zero), plus the model-only
out-of-fuel marker. -/
inductive Err where
  | indexError
  | valueError
  | typeError
  | zeroDivisionError
  | outOfFuel
  deriving DecidableEq

/-- A numeric literal token, as matched by the second alternative of the
token regex on path_parser.py line 18 and renderer.py line 169, namely an
optional minus sign, a nonempty run of integer digits, an optional decimal
point, and a (possibly empty) run of fractional digits. -/
structure NumLit where
  neg : Bool
  intDigits : List Nat
  hasDot : Bool
  fracDigits : List Nat
  deriving DecidableEq

/-- Value of a digit run read in base 10. -/
def digitsVal (ds : List Nat) : Nat := ds.foldl (fun a d => 10 * a + d) 0

/-- The exact value Python's float() assigns to the literal. -/
def NumLit.val (n : NumLit) : ℚ :=
  (if n.neg then -1 else 1) *
    ((digitsVal n.intDigits : ℚ) + (digitsVal n.fracDigits : ℚ) / 10 ^ n.fracDigits.length)

/-- Python's int() on the literal string: a ValueError when the literal
contains a decimal point (int("5.") and int("5.0") both fail), otherwise
the signed integer value. -/
def NumLit.intVal (n : NumLit) : Except Err ℤ :=
  if n.hasDot then .error .valueError
  else .ok ((if n.neg then -1 else 1) * (digitsVal n.intDigits : ℤ))

/-- A token produced by re.findall(r'[MmLlHhVvCcSsQqTtAaZz]|-?\d+\.?\d*', d):
either a single command letter or a numeric literal. -/
inductive Tok where
  | cmd (c : Char)
  | num (n : NumLit)
  deriving DecidableEq

/-- The twenty recognized command letters. -/
def cmdChars : List Char :=
  ['M', 'm', 'L', 'l', 'H', 'h', 'V', 'v', 'C', 'c',
   'S', 's', 'Q', 'q', 'T', 't', 'A', 'a', 'Z', 'z']

/-- Numeric value of a digit character. -/
def digitVal (c : Char) : Nat := c.toNat - '0'.toNat

/-- Maximal run of decimal digits at the head of the character list (the
greedy \d+ and \d* parts of the token regex), together with the unconsumed
remainder. -/
def digitRun : List Char → List Nat × List Char
  | [] => ([], [])
  | c :: rest =>
    if c.isDigit then
      let (ds, rem) := digitRun rest
      (digitVal c :: ds, rem)
    else ([], c :: rest)

/-- Scan one numeric literal -?\d+\.?\d* whose nonempty integer digit run
starts the given list; the sign has already been consumed by the caller. -/
def scanNum (neg : Bool) (l : List Char) : NumLit × List Char :=
  let (ids, r1) := digitRun l
  match r1 with
  | '.' :: r2 =>
    let (fds, r3) := digitRun r2
    (⟨neg, ids, true, fds⟩, r3)
  | _ => (⟨neg, ids, false, []⟩, r1)

/-- Whether the list starts with a decimal digit (used for the regex
backtracking behaviour of -?\d+: a minus sign not followed by a digit is
not part of any number match). -/
def headDigit : List Char → Bool
  | [] => false
  | c :: _ => c.isDigit

/-- One left-to-right scan of re.findall over the path-data characters
(path_parser.py line 18, renderer.py line 169): command letters and numeric
literals become tokens and every other character is skipped silently.  The
fuel argument only forces termination; the entry point supplies one unit
per character, which always suffices because every step consumes at least
one character. -/
def tokenizeAux : Nat → List Char → List Tok
  | 0, _ => []
  | _, [] => []
  | fuel + 1, c :: rest =>
    if c ∈ cmdChars then .cmd c :: tokenizeAux fuel rest
    else if c.isDigit then
      let (n, rem) := scanNum false (c :: rest)
      .num n :: tokenizeAux fuel rem
    else if c == '-' && headDigit rest then
      let (n, rem) := scanNum true rest
      .num n :: tokenizeAux fuel rem
    else tokenizeAux fuel rest

/-- The token list of a path-data string. -/
def tokenize (path_data : String) : List Tok :=
  tokenizeAux path_data.length path_data.toList

/-- Interpreter state of one parse pass (path_parser.py lines 19-22 and the
local variables of Renderer.draw_path, renderer.py lines 171-174): the
absolute cursor, the emitted points, the token processed by the previous
loop iteration (None before the first), and the last cubic or quadratic
control point (None until a curve command sets it). -/
structure PState where
  current_position : ℝ × ℝ
  points : List (ℝ × ℝ)
  last_command : Option Tok
  control_point : Option (ℝ × ℝ)

/-- The initial state: cursor (0,0), no points, no last command, no
control point. -/
noncomputable def initState : PState :=
  { current_position := (0, 0), points := [], last_command := none, control_point := none }

/-- Python float() applied to a token: numeric literals convert to their
value, command letters raise ValueError. -/
noncomputable def tokFloat : Tok → Except Err ℝ
  | .cmd _ => .error .valueError
  | .num n => .ok (n.val : ℝ)

/-- Python int() applied to a token: command letters and literals with a
decimal point raise ValueError. -/
def tokInt : Tok → Except Err ℤ
  | .cmd _ => .error .valueError
  | .num n => n.intVal

/-- self.commands.pop(0): IndexError on an empty list. -/
def popTok : List Tok → Except Err (Tok × List Tok)
  | [] => .error .indexError
  | t :: rest => .ok (t, rest)

/-- float(self.commands.pop(0)). -/
noncomputable def popF (ts : List Tok) : Except Err (ℝ × List Tok) := do
  let (t, rest) ← popTok ts
  let x ← tokFloat t
  pure (x, rest)

/-- int(self.commands.pop(0)). -/
def popI (ts : List Tok) : Except Err (ℤ × List Tok) := do
  let (t, rest) ← popTok ts
  let x ← tokInt t
  pure (x, rest)

/-- k successive float(self.commands.pop(0)) calls, left to right. -/
noncomputable def popFloats : Nat → List Tok → Except Err (List ℝ × List Tok)
  | 0, ts => .ok ([], ts)
  | k + 1, ts => do
    let (x, ts1) ← popF ts
    let (xs, ts2) ← popFloats k ts1
    pure (x :: xs, ts2)

/-- PathParser.generate_cubic_bezier_points (path_parser.py lines 185-204);
Renderer.generate_cubic_bezier_points (renderer.py lines 307-315) is
character-identical.  The six entries of the control_points list argument
are passed as six separate arguments. -/
noncomputable def generate_cubic_bezier_points
    (start_point : ℝ × ℝ) (x1 y1 x2 y2 x3 y3 : ℝ) : List (ℝ × ℝ) :=
  (List.range 11).map fun i =>
    let t : ℝ := i / 10
    ((1 - t) ^ 3 * start_point.1 + 3 * (1 - t) ^ 2 * t * x1
       + 3 * (1 - t) * t ^ 2 * x2 + t ^ 3 * x3,
     (1 - t) ^ 3 * start_point.2 + 3 * (1 - t) ^ 2 * t * y1
       + 3 * (1 - t) * t ^ 2 * y2 + t ^ 3 * y3)

/-- PathParser.generate_quadratic_bezier_points (path_parser.py lines
206-224); Renderer.generate_quadratic_bezier_points (renderer.py lines
317-325) is character-identical. -/
noncomputable def generate_quadratic_bezier_points
    (start_point : ℝ × ℝ) (x1 y1 x2 y2 : ℝ) : List (ℝ × ℝ) :=
  (List.range 11).map fun i =>
    let t : ℝ := i / 10
    ((1 - t) ^ 2 * start_point.1 + 2 * (1 - t) * t * x1 + t ^ 2 * x2,
     (1 - t) ^ 2 * start_point.2 + 2 * (1 - t) * t * y1 + t ^ 2 * y2)

/-- Python's math.atan2(y, x): the argument of the complex number x + y i,
in the interval (-pi, pi]. -/
noncomputable def atan2 (y x : ℝ) : ℝ := Complex.arg ⟨x, y⟩

/-- Python's int() on a float: truncation toward zero. -/
noncomputable def pyTrunc (r : ℝ) : ℤ := if 0 ≤ r then ⌊r⌋ else -⌊-r⌋

/-- Python float division: ZeroDivisionError on a zero divisor. -/
noncomputable def divE (a b : ℝ) : Except Err ℝ :=
  if b = 0 then .error .zeroDivisionError else .ok (a / b)

/-- Python's % on floats with a (nonzero) real modulus. -/
noncomputable def fmod (a b : ℝ) : ℝ := a - b * ⌊a / b⌋

/-- Python's math.radians. -/
noncomputable def radians (d : ℝ) : ℝ := d * Real.pi / 180

/-- The radicand fraction of the endpoint-to-center conversion, before the
int() truncation / max clamp (the division on path_parser.py lines 261-262
and renderer.py lines 347-348): numerator rx^2 ry^2 - rx^2 y1p^2 - ry^2 x1p^2
over denominator rx^2 y1p^2 + ry^2 x1p^2, a ZeroDivisionError when the
denominator is zero. -/
noncomputable def arcRadicandQuot (rx ry x1p y1p : ℝ) : Except Err ℝ :=
  divE (rx ^ 2 * ry ^ 2 - rx ^ 2 * y1p ^ 2 - ry ^ 2 * x1p ^ 2)
    (rx ^ 2 * y1p ^ 2 + ry ^ 2 * x1p ^ 2)

/-- The clamped radicand of PathParser.generate_arc_points line 261:
max(0, int(quotient)), an integer because of the int() truncation. -/
noncomputable def PathParser.arcRadicand (rx ry x1p y1p : ℝ) : Except Err ℤ := do
  let q ← arcRadicandQuot rx ry x1p y1p
  pure (max 0 (pyTrunc q))

/-- The clamped radicand of Renderer.generate_arc_points line 347:
max(0, quotient), kept as a float. -/
noncomputable def Renderer.arcRadicand (rx ry x1p y1p : ℝ) : Except Err ℝ := do
  let q ← arcRadicandQuot rx ry x1p y1p
  pure (max 0 q)

/-- PathParser.generate_arc_points (path_parser.py lines 226-288).  In this
variant large_arc and sweep arrive as floats (see handle_arc below) and the
radicand is truncated to an integer with int() before the max(0, _) clamp
(line 261).  Every float division is checked where the source performs
it. -/
noncomputable def PathParser.generate_arc_points
    (start_point : ℝ × ℝ) (rx ry x_rot_deg large_arc sweep : ℝ)
    (end_point : ℝ × ℝ) : Except Err (List (ℝ × ℝ)) := do
  let x_rot := radians x_rot_deg
  let x1 := start_point.1
  let y1 := start_point.2
  let x2 := end_point.1
  let y2 := end_point.2
  let dx := (x1 - x2) / 2
  let dy := (y1 - y2) / 2
  let x1p := Real.cos x_rot * dx + Real.sin x_rot * dy
  let y1p := -Real.sin x_rot * dx + Real.cos x_rot * dy
  let radicand ← PathParser.arcRadicand rx ry x1p y1p
  let c := if large_arc ≠ sweep then Real.sqrt (radicand : ℝ) else -Real.sqrt (radicand : ℝ)
  let cxp ← divE (c * (rx * y1p)) ry
  let cyp ← divE (c * -(ry * x1p)) rx
  let cx := Real.cos x_rot * cxp - Real.sin x_rot * cyp + (x1 + x2) / 2
  let cy := Real.sin x_rot * cxp + Real.cos x_rot * cyp + (y1 + y2) / 2
  let a1 ← divE (y1p - cyp) ry
  let a2 ← divE (x1p - cxp) rx
  let theta1 := atan2 a1 a2
  let b1 ← divE (-y1p - cyp) ry
  let b2 ← divE (-x1p - cxp) rx
  let dt0 := atan2 b1 b2 - theta1
  let delta_theta :=
    if sweep = 0 then dt0 - 2 * Real.pi
    else fmod (dt0 + 2 * Real.pi) (2 * Real.pi)
  pure ((List.range 11).map fun i =>
    let t : ℝ := i / 10
    let theta := theta1 + t * delta_theta
    (cx + rx * Real.cos theta * Real.cos x_rot - ry * Real.sin theta * Real.sin x_rot,
     cy + rx * Real.cos theta * Real.sin x_rot + ry * Real.sin theta * Real.cos x_rot))

/-- Renderer.generate_arc_points (renderer.py lines 327-374): identical to
the PathParser variant except that large_arc and sweep arrive as ints and
the radicand stays a float (no int() truncation, line 347). -/
noncomputable def Renderer.generate_arc_points
    (start_point : ℝ × ℝ) (rx ry x_rot_deg : ℝ) (large_arc sweep : ℤ)
    (end_point : ℝ × ℝ) : Except Err (List (ℝ × ℝ)) := do
  let x_rot := radians x_rot_deg
  let x1 := start_point.1
  let y1 := start_point.2
  let x2 := end_point.1
  let y2 := end_point.2
  let dx := (x1 - x2) / 2
  let dy := (y1 - y2) / 2
  let x1p := Real.cos x_rot * dx + Real.sin x_rot * dy
  let y1p := -Real.sin x_rot * dx + Real.cos x_rot * dy
  let radicand ← Renderer.arcRadicand rx ry x1p y1p
  let c := if large_arc ≠ sweep then Real.sqrt radicand else -Real.sqrt radicand
  let cxp ← divE (c * (rx * y1p)) ry
  let cyp ← divE (c * -(ry * x1p)) rx
  let cx := Real.cos x_rot * cxp - Real.sin x_rot * cyp + (x1 + x2) / 2
  let cy := Real.sin x_rot * cxp + Real.cos x_rot * cyp + (y1 + y2) / 2
  let a1 ← divE (y1p - cyp) ry
  let a2 ← divE (x1p - cxp) rx
  let theta1 := atan2 a1 a2
  let b1 ← divE (-y1p - cyp) ry
  let b2 ← divE (-x1p - cxp) rx
  let dt0 := atan2 b1 b2 - theta1
  let delta_theta :=
    if sweep = 0 then dt0 - 2 * Real.pi
    else fmod (dt0 + 2 * Real.pi) (2 * Real.pi)
  pure ((List.range 11).map fun i =>
    let t : ℝ := i / 10
    let theta := theta1 + t * delta_theta
    (cx + rx * Real.cos theta * Real.cos x_rot - ry * Real.sin theta * Real.sin x_rot,
     cy + rx * Real.cos theta * Real.sin x_rot + ry * Real.sin theta * Real.cos x_rot))

/-- Result type of one command handler: on success the remaining token list
and the updated state, on failure the exception together with the state as
it stands when the exception is raised. -/
abbrev HRes := Except (Err × PState) (List Tok × PState)

/-- PathParser._handle_move_to (path_parser.py lines 56-65): pop two
floats, set the cursor (offset when the command is lowercase), append the
cursor.  The inline M branch of Renderer.draw_path (renderer.py lines
178-186) performs the identical operations. -/
noncomputable def PathParser.handle_move_to (cmd : Char) (ts : List Tok) (st : PState) : HRes :=
  match popFloats 2 ts with
  | .error e => .error (e, st)
  | .ok ([x, y], rest) =>
    let p := if cmd = 'm' then (st.current_position.1 + x, st.current_position.2 + y) else (x, y)
    .ok (rest, { st with current_position := p, points := st.points ++ [p] })
  | .ok (_, _) => .error (.indexError, st)  -- unreachable: popFloats 2 yields two values

/-- PathParser._handle_line_to (path_parser.py lines 67-76); identical in
effect to the move handler except for the lowercase letter tested. -/
noncomputable def PathParser.handle_line_to (cmd : Char) (ts : List Tok) (st : PState) : HRes :=
  match popFloats 2 ts with
  | .error e => .error (e, st)
  | .ok ([x, y], rest) =>
    let p := if cmd = 'l' then (st.current_position.1 + x, st.current_position.2 + y) else (x, y)
    .ok (rest, { st with current_position := p, points := st.points ++ [p] })
  | .ok (_, _) => .error (.indexError, st)  -- unreachable: popFloats 2 yields two values

/-- PathParser._handle_horizontal_line_to (path_parser.py lines 78-87):
pop one float, update only the x component of the cursor, append the
cursor. -/
noncomputable def PathParser.handle_horizontal_line_to
    (cmd : Char) (ts : List Tok) (st : PState) : HRes :=
  match popF ts with
  | .error e => .error (e, st)
  | .ok (x, rest) =>
    let p := ((if cmd = 'h' then st.current_position.1 + x else x), st.current_position.2)
    .ok (rest, { st with current_position := p, points := st.points ++ [p] })

/-- PathParser._handle_vertical_line_to (path_parser.py lines 89-98). -/
noncomputable def PathParser.handle_vertical_line_to
    (cmd : Char) (ts : List Tok) (st : PState) : HRes :=
  match popF ts with
  | .error e => .error (e, st)
  | .ok (y, rest) =>
    let p := (st.current_position.1, (if cmd = 'v' then st.current_position.2 + y else y))
    .ok (rest, { st with current_position := p, points := st.points ++ [p] })

/-- PathParser._handle_cubic_bezier (path_parser.py lines 100-112): pop six
floats, absolutize them against the cursor when the command is lowercase,
extend points with the eleven cubic Bezier samples, then set the cursor to
the endpoint and the control point to the second control point. -/
noncomputable def PathParser.handle_cubic_bezier (cmd : Char) (ts : List Tok) (st : PState) : HRes :=
  match popFloats 6 ts with
  | .error e => .error (e, st)
  | .ok ([x1, y1, x2, y2, x, y], rest) =>
    let px := st.current_position.1
    let py := st.current_position.2
    let (x1', y1', x2', y2', x', y') :=
      if cmd = 'c' then (x1 + px, y1 + py, x2 + px, y2 + py, x + px, y + py)
      else (x1, y1, x2, y2, x, y)
    let bezier_points := generate_cubic_bezier_points st.current_position x1' y1' x2' y2' x' y'
    .ok (rest, { st with points := st.points ++ bezier_points,
                         current_position := (x', y'),
                         control_point := some (x2', y2') })
  | .ok (_, _) => .error (.indexError, st)  -- unreachable: popFloats 6 yields six values

/-- The membership test last_command in "CcSs" of path_parser.py line 121
(and renderer.py line 232).  Python evaluates it as a substring test on the
token string: it holds exactly for the four single-letter tokens C, c, S, s,
since no other command letter and no numeric literal (made of digits, a
minus sign and a dot) is a substring of "CcSs". -/
def tokInCcSs : Tok → Bool
  | .cmd c => c == 'C' || c == 'c' || c == 'S' || c == 's'
  | .num _ => false

/-- The membership test last_command in "QqTt" of path_parser.py line 153
(and renderer.py line 268), by the same substring reasoning. -/
def tokInQqTt : Tok → Bool
  | .cmd c => c == 'Q' || c == 'q' || c == 'T' || c == 't'
  | .num _ => false

/-- The control-point reflection gate of _handle_smooth_cubic_bezier
(path_parser.py lines 121-124), run before any argument is popped.  A
last_command of None makes the membership test itself raise TypeError; a
control_point of None in the reflection branch makes the subscript raise
TypeError; otherwise the implicit first control point is the cursor (no
prior cubic) or the reflection 2*cursor - control_point. -/
def smoothCubicCtrl (st : PState) : Except Err (ℝ × ℝ) :=
  match st.last_command with
  | none => .error .typeError
  | some l =>
    if tokInCcSs l then
      match st.control_point with
      | none => .error .typeError
      | some cp =>
        .ok (2 * st.current_position.1 - cp.1, 2 * st.current_position.2 - cp.2)
    else .ok st.current_position

/-- The analogous gate of _handle_smooth_quadratic_bezier (path_parser.py
lines 153-156), keyed on membership in "QqTt". -/
def smoothQuadCtrl (st : PState) : Except Err (ℝ × ℝ) :=
  match st.last_command with
  | none => .error .typeError
  | some l =>
    if tokInQqTt l then
      match st.control_point with
      | none => .error .typeError
      | some cp =>
        .ok (2 * st.current_position.1 - cp.1, 2 * st.current_position.2 - cp.2)
    else .ok st.current_position

/-- PathParser._handle_smooth_cubic_bezier (path_parser.py lines 114-130):
the gate fixes the implicit first control point and stores it in
control_point before the four floats are popped (so a truncated argument
list still leaves the gated control point behind); the curve is then
tessellated like C and control_point ends as the explicit second control
point. -/
noncomputable def PathParser.handle_smooth_cubic_bezier
    (cmd : Char) (ts : List Tok) (st : PState) : HRes :=
  match smoothCubicCtrl st with
  | .error e => .error (e, st)
  | .ok icp =>
    let st1 := { st with control_point := some icp }
    match popFloats 4 ts with
    | .error e => .error (e, st1)
    | .ok ([x2, y2, x, y], rest) =>
      let px := st.current_position.1
      let py := st.current_position.2
      let (x2', y2', x', y') :=
        if cmd = 's' then (x2 + px, y2 + py, x + px, y + py) else (x2, y2, x, y)
      let bezier_points := generate_cubic_bezier_points st.current_position icp.1 icp.2 x2' y2' x' y'
      .ok (rest, { st1 with points := st.points ++ bezier_points,
                            current_position := (x', y'),
                            control_point := some (x2', y2') })
    | .ok (_, _) => .error (.indexError, st1)  -- unreachable: popFloats 4 yields four values

/-- PathParser._handle_quadratic_bezier (path_parser.py lines 132-144). -/
noncomputable def PathParser.handle_quadratic_bezier
    (cmd : Char) (ts : List Tok) (st : PState) : HRes :=
  match popFloats 4 ts with
  | .error e => .error (e, st)
  | .ok ([x1, y1, x, y], rest) =>
    let px := st.current_position.1
    let py := st.current_position.2
    let (x1', y1', x', y') :=
      if cmd = 'q' then (x1 + px, y1 + py, x + px, y + py) else (x1, y1, x, y)
    let bezier_points := generate_quadratic_bezier_points st.current_position x1' y1' x' y'
    .ok (rest, { st with points := st.points ++ bezier_points,
                         current_position := (x', y'),
                         control_point := some (x1', y1') })
  | .ok (_, _) => .error (.indexError, st)  -- unreachable: popFloats 4 yields four values

/-- PathParser._handle_smooth_quadratic_bezier (path_parser.py lines
146-162): gate as for S but keyed on "QqTt", two floats for the endpoint
only; control_point keeps the gated implicit control point (line 162
reassigns only current_position). -/
noncomputable def PathParser.handle_smooth_quadratic_bezier
    (cmd : Char) (ts : List Tok) (st : PState) : HRes :=
  match smoothQuadCtrl st with
  | .error e => .error (e, st)
  | .ok icp =>
    let st1 := { st with control_point := some icp }
    match popFloats 2 ts with
    | .error e => .error (e, st1)
    | .ok ([x, y], rest) =>
      let px := st.current_position.1
      let py := st.current_position.2
      let (x', y') := if cmd = 't' then (x + px, y + py) else (x, y)
      let bezier_points := generate_quadratic_bezier_points st.current_position icp.1 icp.2 x' y'
      .ok (rest, { st1 with points := st.points ++ bezier_points,
                            current_position := (x', y') })
    | .ok (_, _) => .error (.indexError, st1)  -- unreachable: popFloats 2 yields two values

/-- PathParser._handle_arc (path_parser.py lines 164-177).  The generator
expression converts with float() for i < 5 and int() for i in {5, 6}: so
rx, ry, x_rot, large_arc and sweep arrive as floats while the endpoint
coordinates x and y are converted with int() (a ValueError on a fractional
literal). -/
noncomputable def PathParser.handle_arc (cmd : Char) (ts : List Tok) (st : PState) : HRes :=
  match popFloats 5 ts with
  | .error e => .error (e, st)
  | .ok ([rx, ry, x_rot, large_arc, sweep], ts1) =>
    match popI ts1 with
    | .error e => .error (e, st)
    | .ok (xi, ts2) =>
      match popI ts2 with
      | .error e => .error (e, st)
      | .ok (yi, rest) =>
        let x0 : ℝ := xi
        let y0 : ℝ := yi
        let (x, y) :=
          if cmd = 'a' then (x0 + st.current_position.1, y0 + st.current_position.2)
          else (x0, y0)
        match PathParser.generate_arc_points st.current_position rx ry x_rot large_arc sweep (x, y) with
        | .error e => .error (e, st)
        | .ok arc_points =>
          .ok (rest, { st with points := st.points ++ arc_points,
                               current_position := (x, y) })
  | .ok (_, _) => .error (.indexError, st)  -- unreachable: popFloats 5 yields five values

/-- PathParser._handle_close_path (path_parser.py lines 179-183):
self.points.append(self.points[0]); points[0] on an empty list raises
IndexError; nothing else changes. -/
def PathParser.handle_close_path (st : PState) : Except (Err × PState) PState :=
  match st.points with
  | [] => .error (.indexError, st)
  | p :: _ => .ok { st with points := st.points ++ [p] }

/-- The dispatch of one loop iteration of PathParser.parse (path_parser.py
lines 31-52): the chain of elif membership tests on the popped token.  A
token matching no branch (a numeric literal in command position) falls
through with no handler call. -/
noncomputable def PathParser.dispatch (tok : Tok) (rest : List Tok) (st : PState) : HRes :=
  match tok with
  | .num _ => .ok (rest, st)
  | .cmd c =>
    if c = 'M' ∨ c = 'm' then PathParser.handle_move_to c rest st
    else if c = 'L' ∨ c = 'l' then PathParser.handle_line_to c rest st
    else if c = 'H' ∨ c = 'h' then PathParser.handle_horizontal_line_to c rest st
    else if c = 'V' ∨ c = 'v' then PathParser.handle_vertical_line_to c rest st
    else if c = 'C' ∨ c = 'c' then PathParser.handle_cubic_bezier c rest st
    else if c = 'S' ∨ c = 's' then PathParser.handle_smooth_cubic_bezier c rest st
    else if c = 'Q' ∨ c = 'q' then PathParser.handle_quadratic_bezier c rest st
    else if c = 'T' ∨ c = 't' then PathParser.handle_smooth_quadratic_bezier c rest st
    else if c = 'A' ∨ c = 'a' then PathParser.handle_arc c rest st
    else if c = 'Z' ∨ c = 'z' then
      match PathParser.handle_close_path st with
      | .error e => .error e
      | .ok st' => .ok (rest, st')
    else .ok (rest, st)

/-- The while loop of PathParser.parse (path_parser.py lines 31-54): pop
the head token, dispatch, record it as last_command, continue.  The fuel
argument forces termination; the entry point supplies the token-list
length, which always suffices because every iteration consumes at least the
head token. -/
noncomputable def PathParser.run : Nat → List Tok → PState → Except (Err × PState) PState
  | _, [], st => .ok st
  | 0, _ :: _, st => .error (.outOfFuel, st)
  | fuel + 1, tok :: rest, st =>
    match PathParser.dispatch tok rest st with
    | .error e => .error e
    | .ok (rest', st') => PathParser.run fuel rest' { st' with last_command := some tok }

/-- PathParser.parse on an already tokenized command list: run the loop
from the initial state and return self.points. -/
noncomputable def PathParser.parseTokens (toks : List Tok) : Except (Err × PState) (List (ℝ × ℝ)) :=
  match PathParser.run toks.length toks initState with
  | .error e => .error e
  | .ok st => .ok st.points

/-- PathParser(path_data).parse(): tokenize (line 18), then run the
interpreter loop (lines 24-54). -/
noncomputable def PathParser.parse (path_data : String) : Except (Err × PState) (List (ℝ × ℝ)) :=
  PathParser.parseTokens (tokenize path_data)

/-- One loop iteration of the interpreter embedded inline in
Renderer.draw_path (renderer.py lines 176-300).  The M/L/H/V/C/S/Q/T/Z
branches perform, statement for statement, the operations of the
corresponding PathParser handlers (the reflection gates on lines 232-236
and 268-272 are the same code as path_parser.py lines 121-124 and 153-156,
so the shared gate definitions are reused), and each matched branch ends
with last_command = cmd (lines 186, 195, 203, 211, 230, 251, 266, 282,
297, 300) - unlike PathParser.parse, a token matching no branch leaves
last_command unchanged, since the assignment sits inside the branches.
The A branch differs from PathParser: rx, ry and x_rot are popped with
float(), large_arc and sweep with int(), and the endpoint x, y with
float() (lines 284-290), and the arc tessellation keeps the radicand a
float. -/
noncomputable def Renderer.dispatch (tok : Tok) (rest : List Tok) (st : PState) : HRes :=
  match tok with
  | .num _ => .ok (rest, st)
  | .cmd c =>
    if c = 'M' ∨ c = 'm' then
      match popFloats 2 rest with
      | .error e => .error (e, st)
      | .ok ([x, y], rest') =>
        let p :=
          if c = 'm' then (st.current_position.1 + x, st.current_position.2 + y)
          else (x, y)
        .ok (rest', { st with current_position := p, points := st.points ++ [p],
                              last_command := some (Tok.cmd c) })
      | .ok (_, _) => .error (.indexError, st)  -- unreachable: two values popped
    else if c = 'L' ∨ c = 'l' then
      match popFloats 2 rest with
      | .error e => .error (e, st)
      | .ok ([x, y], rest') =>
        let p :=
          if c = 'l' then (st.current_position.1 + x, st.current_position.2 + y)
          else (x, y)
        .ok (rest', { st with current_position := p, points := st.points ++ [p],
                              last_command := some (Tok.cmd c) })
      | .ok (_, _) => .error (.indexError, st)  -- unreachable: two values popped
    else if c = 'H' ∨ c = 'h' then
      match popF rest with
      | .error e => .error (e, st)
      | .ok (x, rest') =>
        let p := ((if c = 'h' then st.current_position.1 + x else x), st.current_position.2)
        .ok (rest', { st with current_position := p, points := st.points ++ [p],
                              last_command := some (Tok.cmd c) })
    else if c = 'V' ∨ c = 'v' then
      match popF rest with
      | .error e => .error (e, st)
      | .ok (y, rest') =>
        let p := (st.current_position.1, (if c = 'v' then st.current_position.2 + y else y))
        .ok (rest', { st with current_position := p, points := st.points ++ [p],
                              last_command := some (Tok.cmd c) })
    else if c = 'C' ∨ c = 'c' then
      match popFloats 6 rest with
      | .error e => .error (e, st)
      | .ok ([x1, y1, x2, y2, x, y], rest') =>
        let px := st.current_position.1
        let py := st.current_position.2
        let (x1', y1', x2', y2', x', y') :=
          if c = 'c' then (x1 + px, y1 + py, x2 + px, y2 + py, x + px, y + py)
          else (x1, y1, x2, y2, x, y)
        let bezier_points := generate_cubic_bezier_points st.current_position x1' y1' x2' y2' x' y'
        .ok (rest', { st with points := st.points ++ bezier_points,
                              current_position := (x', y'),
                              control_point := some (x2', y2'),
                              last_command := some (Tok.cmd c) })
      | .ok (_, _) => .error (.indexError, st)  -- unreachable: six values popped
    else if c = 'S' ∨ c = 's' then
      match smoothCubicCtrl st with
      | .error e => .error (e, st)
      | .ok icp =>
        let st1 := { st with control_point := some icp }
        match popFloats 4 rest with
        | .error e => .error (e, st1)
        | .ok ([x2, y2, x, y], rest') =>
          let px := st.current_position.1
          let py := st.current_position.2
          let (x2', y2', x', y') :=
            if c = 's' then (x2 + px, y2 + py, x + px, y + py) else (x2, y2, x, y)
          let bezier_points :=
            generate_cubic_bezier_points st.current_position icp.1 icp.2 x2' y2' x' y'
          .ok (rest', { st1 with points := st.points ++ bezier_points,
                                 current_position := (x', y'),
                                 control_point := some (x2', y2'),
                                 last_command := some (Tok.cmd c) })
        | .ok (_, _) => .error (.indexError, st1)  -- unreachable: four values popped
    else if c = 'Q' ∨ c = 'q' then
      match popFloats 4 rest with
      | .error e => .error (e, st)
      | .ok ([x1, y1, x, y], rest') =>
        let px := st.current_position.1
        let py := st.current_position.2
        let (x1', y1', x', y') :=
          if c = 'q' then (x1 + px, y1 + py, x + px, y + py) else (x1, y1, x, y)
        let bezier_points := generate_quadratic_bezier_points st.current_position x1' y1' x' y'
        .ok (rest', { st with points := st.points ++ bezier_points,
                              current_position := (x', y'),
                              control_point := some (x1', y1'),
                              last_command := some (Tok.cmd c) })
      | .ok (_, _) => .error (.indexError, st)  -- unreachable: four values popped
    else if c = 'T' ∨ c = 't' then
      match smoothQuadCtrl st with
      | .error e => .error (e, st)
      | .ok icp =>
        let st1 := { st with control_point := some icp }
        match popFloats 2 rest with
        | .error e => .error (e, st1)
        | .ok ([x, y], rest') =>
          let px := st.current_position.1
          let py := st.current_position.2
          let (x', y') := if c = 't' then (x + px, y + py) else (x, y)
          let bezier_points :=
            generate_quadratic_bezier_points st.current_position icp.1 icp.2 x' y'
          .ok (rest', { st1 with points := st.points ++ bezier_points,
                                 current_position := (x', y'),
                                 last_command := some (Tok.cmd c) })
        | .ok (_, _) => .error (.indexError, st1)  -- unreachable: two values popped
    else if c = 'A' ∨ c = 'a' then
      match popFloats 3 rest with
      | .error e => .error (e, st)
      | .ok ([rx, ry, x_rot], ts1) =>
        match popI ts1 with
        | .error e => .error (e, st)
        | .ok (large_arc, ts2) =>
          match popI ts2 with
          | .error e => .error (e, st)
          | .ok (sweep, ts3) =>
            match popF ts3 with
            | .error e => .error (e, st)
            | .ok (x0, ts4) =>
              match popF ts4 with
              | .error e => .error (e, st)
              | .ok (y0, rest') =>
                let (x, y) :=
                  if c = 'a' then (x0 + st.current_position.1, y0 + st.current_position.2)
                  else (x0, y0)
                match Renderer.generate_arc_points st.current_position rx ry x_rot
                    large_arc sweep (x, y) with
                | .error e => .error (e, st)
                | .ok arc_points =>
                  .ok (rest', { st with points := st.points ++ arc_points,
                                        current_position := (x, y),
                                        last_command := some (Tok.cmd c) })
      | .ok (_, _) => .error (.indexError, st)  -- unreachable: three values popped
    else if c = 'Z' ∨ c = 'z' then
      match st.points with
      | [] => .error (.indexError, st)
      | p :: _ => .ok (rest, { st with points := st.points ++ [p],
                                       last_command := some (Tok.cmd c) })
    else .ok (rest, st)

/-- The while loop of the interpreter inline in Renderer.draw_path
(renderer.py lines 176-300), with the same fuel convention as
PathParser.run; last_command is updated inside the matched branches (see
Renderer.dispatch), not after the if/elif chain. -/
noncomputable def Renderer.run : Nat → List Tok → PState → Except (Err × PState) PState
  | _, [], st => .ok st
  | 0, _ :: _, st => .error (.outOfFuel, st)
  | fuel + 1, tok :: rest, st =>
    match Renderer.dispatch tok rest st with
    | .error e => .error e
    | .ok (rest', st') => Renderer.run fuel rest' st'

/-- The point sequence Renderer.draw_path computes for a path-data string
before handing it to the rasterizer, on an already tokenized list. -/
noncomputable def Renderer.draw_path_tokens (toks : List Tok) :
    Except (Err × PState) (List (ℝ × ℝ)) :=
  match Renderer.run toks.length toks initState with
  | .error e => .error e
  | .ok st => .ok st.points

/-- The point sequence Renderer.draw_path computes from the d attribute
value (renderer.py lines 164-300). -/
noncomputable def Renderer.draw_path_points (path_data : String) :
    Except (Err × PState) (List (ℝ × ℝ)) :=
  Renderer.draw_path_tokens (tokenize path_data)

/- ------------------------------------------------------------------ -/
/- Helper lemmas about the popping primitives and the curve samplers. -/
/- ------------------------------------------------------------------ -/

theorem popTok_suffix {ts ts' : List Tok} {t : Tok} (h : popTok ts = .ok (t, ts')) :
    ts' <:+ ts := by
  cases ts with
  | nil => simp [popTok] at h
  | cons a l => simp [popTok] at h; exact h.2 ▸ List.suffix_cons a l

theorem popF_suffix {ts ts' : List Tok} {x : ℝ} (h : popF ts = .ok (x, ts')) :
    ts' <:+ ts := by
  unfold popF at h
  cases hp : popTok ts with
  | error e => rw [hp] at h; simp [bind, Except.bind] at h
  | ok v =>
    obtain ⟨t, rest⟩ := v
    rw [hp] at h
    simp only [bind, Except.bind] at h
    cases hf : tokFloat t with
    | error e => rw [hf] at h; simp at h
    | ok y =>
      rw [hf] at h
      simp [pure, Except.pure] at h
      exact h.2 ▸ popTok_suffix hp

theorem popI_suffix {ts ts' : List Tok} {x : ℤ} (h : popI ts = .ok (x, ts')) :
    ts' <:+ ts := by
  unfold popI at h
  cases hp : popTok ts with
  | error e => rw [hp] at h; simp [bind, Except.bind] at h
  | ok v =>
    obtain ⟨t, rest⟩ := v
    rw [hp] at h
    simp only [bind, Except.bind] at h
    cases hf : tokInt t with
    | error e => rw [hf] at h; simp at h
    | ok y =>
      rw [hf] at h
      simp [pure, Except.pure] at h
      exact h.2 ▸ popTok_suffix hp

theorem popFloats_suffix {k : Nat} {ts ts' : List Tok} {xs : List ℝ}
    (h : popFloats k ts = .ok (xs, ts')) : ts' <:+ ts := by
  induction k generalizing ts ts' xs with
  | zero => simp [popFloats] at h; exact h.2 ▸ List.suffix_rfl
  | succ k ih =>
    unfold popFloats at h
    cases hp : popF ts with
    | error e => rw [hp] at h; simp [bind, Except.bind] at h
    | ok v =>
      obtain ⟨x0, ts1⟩ := v
      rw [hp] at h
      simp only [bind, Except.bind] at h
      cases hr : popFloats k ts1 with
      | error e => rw [hr] at h; simp at h
      | ok w =>
        obtain ⟨xs1, ts2⟩ := w
        rw [hr] at h
        simp [pure, Except.pure] at h
        exact List.IsSuffix.trans (h.2 ▸ ih hr) (popF_suffix hp)

theorem generate_cubic_length (p : ℝ × ℝ) (x1 y1 x2 y2 x3 y3 : ℝ) :
    (generate_cubic_bezier_points p x1 y1 x2 y2 x3 y3).length = 11 := by
  unfold generate_cubic_bezier_points
  rfl

theorem generate_cubic_head (p : ℝ × ℝ) (x1 y1 x2 y2 x3 y3 : ℝ) :
    (generate_cubic_bezier_points p x1 y1 x2 y2 x3 y3).head? = some p := by
  simp [generate_cubic_bezier_points, List.range_succ_eq_map]

theorem generate_cubic_getLast (p : ℝ × ℝ) (x1 y1 x2 y2 x3 y3 : ℝ) :
    (generate_cubic_bezier_points p x1 y1 x2 y2 x3 y3).getLast? = some (x3, y3) := by
  simp [generate_cubic_bezier_points, List.range_succ]

theorem generate_quadratic_length (p : ℝ × ℝ) (x1 y1 x2 y2 : ℝ) :
    (generate_quadratic_bezier_points p x1 y1 x2 y2).length = 11 := by
  unfold generate_quadratic_bezier_points
  rfl

theorem generate_quadratic_head (p : ℝ × ℝ) (x1 y1 x2 y2 : ℝ) :
    (generate_quadratic_bezier_points p x1 y1 x2 y2).head? = some p := by
  simp [generate_quadratic_bezier_points, List.range_succ_eq_map]

theorem generate_quadratic_getLast (p : ℝ × ℝ) (x1 y1 x2 y2 : ℝ) :
    (generate_quadratic_bezier_points p x1 y1 x2 y2).getLast? = some (x2, y2) := by
  simp [generate_quadratic_bezier_points, List.range_succ]

/- ------------------------------------------------------------------ -/
/- Cursor invariant (claim C1). -/
/- ------------------------------------------------------------------ -/

/-- The invariant claimed for current_position in the spec: whenever points
is nonempty, the cursor equals the most recently appended point. -/
def cursorInv (st : PState) : Prop :=
  st.points ≠ [] → st.points.getLast? = some st.current_position

theorem generate_cubic_ne_nil (p : ℝ × ℝ) (x1 y1 x2 y2 x3 y3 : ℝ) :
    generate_cubic_bezier_points p x1 y1 x2 y2 x3 y3 ≠ [] := by
  intro hc
  have := generate_cubic_length p x1 y1 x2 y2 x3 y3
  rw [hc] at this
  simp at this

theorem generate_quadratic_ne_nil (p : ℝ × ℝ) (x1 y1 x2 y2 : ℝ) :
    generate_quadratic_bezier_points p x1 y1 x2 y2 ≠ [] := by
  intro hc
  have := generate_quadratic_length p x1 y1 x2 y2
  rw [hc] at this
  simp at this

theorem handle_move_to_inv {c : Char} {ts ts' : List Tok} {st st' : PState}
    (h : PathParser.handle_move_to c ts st = .ok (ts', st')) :
    st'.points.getLast? = some st'.current_position ∧ ts' <:+ ts := by
  unfold PathParser.handle_move_to at h
  split at h
  · exact absurd h (by simp)
  · rename_i vals rest x y heq
    simp only [Except.ok.injEq, Prod.mk.injEq] at h
    obtain ⟨h1, h2⟩ := h
    subst h1 h2
    refine ⟨?_, popFloats_suffix heq⟩
    simp [List.getLast?_append_of_ne_nil]
  · exact absurd h (by simp)

theorem handle_line_to_inv {c : Char} {ts ts' : List Tok} {st st' : PState}
    (h : PathParser.handle_line_to c ts st = .ok (ts', st')) :
    st'.points.getLast? = some st'.current_position ∧ ts' <:+ ts := by
  unfold PathParser.handle_line_to at h
  split at h
  · exact absurd h (by simp)
  · rename_i vals rest x y heq
    simp only [Except.ok.injEq, Prod.mk.injEq] at h
    obtain ⟨h1, h2⟩ := h
    subst h1 h2
    refine ⟨?_, popFloats_suffix heq⟩
    simp [List.getLast?_append_of_ne_nil]
  · exact absurd h (by simp)

theorem handle_horizontal_inv {c : Char} {ts ts' : List Tok} {st st' : PState}
    (h : PathParser.handle_horizontal_line_to c ts st = .ok (ts', st')) :
    st'.points.getLast? = some st'.current_position ∧ ts' <:+ ts := by
  unfold PathParser.handle_horizontal_line_to at h
  split at h
  · exact absurd h (by simp)
  · rename_i x rest heq
    simp only [Except.ok.injEq, Prod.mk.injEq] at h
    obtain ⟨h1, h2⟩ := h
    subst h1 h2
    refine ⟨?_, popF_suffix heq⟩
    simp [List.getLast?_append_of_ne_nil]

theorem handle_vertical_inv {c : Char} {ts ts' : List Tok} {st st' : PState}
    (h : PathParser.handle_vertical_line_to c ts st = .ok (ts', st')) :
    st'.points.getLast? = some st'.current_position ∧ ts' <:+ ts := by
  unfold PathParser.handle_vertical_line_to at h
  split at h
  · exact absurd h (by simp)
  · rename_i y rest heq
    simp only [Except.ok.injEq, Prod.mk.injEq] at h
    obtain ⟨h1, h2⟩ := h
    subst h1 h2
    refine ⟨?_, popF_suffix heq⟩
    simp [List.getLast?_append_of_ne_nil]

theorem handle_cubic_inv {c : Char} {ts ts' : List Tok} {st st' : PState}
    (h : PathParser.handle_cubic_bezier c ts st = .ok (ts', st')) :
    st'.points.getLast? = some st'.current_position ∧ ts' <:+ ts := by
  unfold PathParser.handle_cubic_bezier at h
  split at h
  · exact absurd h (by simp)
  · rename_i heq
    simp only [Except.ok.injEq, Prod.mk.injEq] at h
    obtain ⟨h1, h2⟩ := h
    subst h1 h2
    refine ⟨?_, popFloats_suffix heq⟩
    by_cases hc : c = 'c' <;>
      simp [hc, List.getLast?_append_of_ne_nil _ (generate_cubic_ne_nil _ _ _ _ _ _ _),
        generate_cubic_getLast]
  · exact absurd h (by simp)

theorem handle_quadratic_inv {c : Char} {ts ts' : List Tok} {st st' : PState}
    (h : PathParser.handle_quadratic_bezier c ts st = .ok (ts', st')) :
    st'.points.getLast? = some st'.current_position ∧ ts' <:+ ts := by
  unfold PathParser.handle_quadratic_bezier at h
  split at h
  · exact absurd h (by simp)
  · rename_i heq
    simp only [Except.ok.injEq, Prod.mk.injEq] at h
    obtain ⟨h1, h2⟩ := h
    subst h1 h2
    refine ⟨?_, popFloats_suffix heq⟩
    by_cases hc : c = 'q' <;>
      simp [hc, List.getLast?_append_of_ne_nil _ (generate_quadratic_ne_nil _ _ _ _ _),
        generate_quadratic_getLast]
  · exact absurd h (by simp)

theorem handle_smooth_cubic_inv {c : Char} {ts ts' : List Tok} {st st' : PState}
    (h : PathParser.handle_smooth_cubic_bezier c ts st = .ok (ts', st')) :
    st'.points.getLast? = some st'.current_position ∧ ts' <:+ ts := by
  unfold PathParser.handle_smooth_cubic_bezier at h
  split at h
  · exact absurd h (by simp)
  · split at h
    · exact absurd h (by simp)
    · rename_i heq
      simp only [Except.ok.injEq, Prod.mk.injEq] at h
      obtain ⟨h1, h2⟩ := h
      subst h1 h2
      refine ⟨?_, popFloats_suffix heq⟩
      by_cases hc : c = 's' <;>
        simp [hc, List.getLast?_append_of_ne_nil _ (generate_cubic_ne_nil _ _ _ _ _ _ _),
          generate_cubic_getLast]
    · exact absurd h (by simp)

theorem handle_smooth_quadratic_inv {c : Char} {ts ts' : List Tok} {st st' : PState}
    (h : PathParser.handle_smooth_quadratic_bezier c ts st = .ok (ts', st')) :
    st'.points.getLast? = some st'.current_position ∧ ts' <:+ ts := by
  unfold PathParser.handle_smooth_quadratic_bezier at h
  split at h
  · exact absurd h (by simp)
  · split at h
    · exact absurd h (by simp)
    · rename_i heq
      simp only [Except.ok.injEq, Prod.mk.injEq] at h
      obtain ⟨h1, h2⟩ := h
      subst h1 h2
      refine ⟨?_, popFloats_suffix heq⟩
      by_cases hc : c = 't' <;>
        simp [hc, List.getLast?_append_of_ne_nil _ (generate_quadratic_ne_nil _ _ _ _ _),
          generate_quadratic_getLast]
    · exact absurd h (by simp)

theorem dispatch_inv {tok : Tok} {rest rest' : List Tok} {st st' : PState}
    (hA : tok ≠ .cmd 'A') (ha : tok ≠ .cmd 'a')
    (hZ : tok ≠ .cmd 'Z') (hz : tok ≠ .cmd 'z')
    (h : PathParser.dispatch tok rest st = .ok (rest', st'))
    (hinv : cursorInv st) :
    cursorInv st' ∧ rest' <:+ rest := by
  cases tok with
  | num n =>
    simp only [PathParser.dispatch, Except.ok.injEq, Prod.mk.injEq] at h
    obtain ⟨h1, h2⟩ := h
    exact ⟨h2 ▸ hinv, h1 ▸ List.suffix_rfl⟩
  | cmd c =>
    simp only [PathParser.dispatch] at h
    by_cases h1 : c = 'M' ∨ c = 'm'
    · rw [if_pos h1] at h
      obtain ⟨hg, hs⟩ := handle_move_to_inv h
      exact ⟨fun _ => hg, hs⟩
    rw [if_neg h1] at h
    by_cases h2 : c = 'L' ∨ c = 'l'
    · rw [if_pos h2] at h
      obtain ⟨hg, hs⟩ := handle_line_to_inv h
      exact ⟨fun _ => hg, hs⟩
    rw [if_neg h2] at h
    by_cases h3 : c = 'H' ∨ c = 'h'
    · rw [if_pos h3] at h
      obtain ⟨hg, hs⟩ := handle_horizontal_inv h
      exact ⟨fun _ => hg, hs⟩
    rw [if_neg h3] at h
    by_cases h4 : c = 'V' ∨ c = 'v'
    · rw [if_pos h4] at h
      obtain ⟨hg, hs⟩ := handle_vertical_inv h
      exact ⟨fun _ => hg, hs⟩
    rw [if_neg h4] at h
    by_cases h5 : c = 'C' ∨ c = 'c'
    · rw [if_pos h5] at h
      obtain ⟨hg, hs⟩ := handle_cubic_inv h
      exact ⟨fun _ => hg, hs⟩
    rw [if_neg h5] at h
    by_cases h6 : c = 'S' ∨ c = 's'
    · rw [if_pos h6] at h
      obtain ⟨hg, hs⟩ := handle_smooth_cubic_inv h
      exact ⟨fun _ => hg, hs⟩
    rw [if_neg h6] at h
    by_cases h7 : c = 'Q' ∨ c = 'q'
    · rw [if_pos h7] at h
      obtain ⟨hg, hs⟩ := handle_quadratic_inv h
      exact ⟨fun _ => hg, hs⟩
    rw [if_neg h7] at h
    by_cases h8 : c = 'T' ∨ c = 't'
    · rw [if_pos h8] at h
      obtain ⟨hg, hs⟩ := handle_smooth_quadratic_inv h
      exact ⟨fun _ => hg, hs⟩
    rw [if_neg h8] at h
    by_cases h9 : c = 'A' ∨ c = 'a'
    · rcases h9 with h9 | h9
      · exact absurd (by rw [h9]) hA
      · exact absurd (by rw [h9]) ha
    rw [if_neg h9] at h
    by_cases h10 : c = 'Z' ∨ c = 'z'
    · rcases h10 with h10 | h10
      · exact absurd (by rw [h10]) hZ
      · exact absurd (by rw [h10]) hz
    rw [if_neg h10] at h
    simp only [Except.ok.injEq, Prod.mk.injEq] at h
    obtain ⟨ha1, ha2⟩ := h
    exact ⟨ha2 ▸ hinv, ha1 ▸ List.suffix_rfl⟩

theorem run_cursorInv {fuel : Nat} {toks : List Tok} {st st' : PState}
    (hAZ : ∀ t ∈ toks, t ≠ .cmd 'A' ∧ t ≠ .cmd 'a' ∧ t ≠ .cmd 'Z' ∧ t ≠ .cmd 'z')
    (h : PathParser.run fuel toks st = .ok st') (hinv : cursorInv st) :
    cursorInv st' := by
  induction fuel generalizing toks st with
  | zero =>
    cases toks with
    | nil => simp [PathParser.run] at h; exact h ▸ hinv
    | cons t rest => simp [PathParser.run] at h
  | succ fuel ih =>
    cases toks with
    | nil => simp [PathParser.run] at h; exact h ▸ hinv
    | cons tok rest =>
      rw [PathParser.run] at h
      cases hd : PathParser.dispatch tok rest st with
      | error e => rw [hd] at h; simp at h
      | ok v =>
        obtain ⟨rest1, st1⟩ := v
        rw [hd] at h
        simp only at h
        obtain ⟨hm1, hm2, hm3, hm4⟩ := hAZ tok (List.mem_cons_self tok rest)
        obtain ⟨hi1, hs1⟩ := dispatch_inv hm1 hm2 hm3 hm4 hd hinv
        exact ih (fun t htm => hAZ t (List.mem_cons_of_mem _ (hs1.subset htm))) h hi1


/-- C1 counterexample: for the path "M0,0 L10,0 Z" the interpreter succeeds
with final cursor (10, 0) while the most recently appended point is (0, 0)
(the Z handler re-appends points[0] without moving the cursor), so the
claimed invariant "current_position always equals the most recently
appended element of points, including after Z/z and A/a commands" fails
after Z. -/
theorem C1_counterexample :
    PathParser.run (tokenize ("M0,0 L10,0 Z")).length (tokenize ("M0,0 L10,0 Z")) initState =
      .ok { current_position := (10, 0),
            points := [(0, 0), (10, 0), (0, 0)],
            last_command := some (Tok.cmd 'Z'),
            control_point := none }
    ∧ ¬ (cursorInv { current_position := (10, 0),
                     points := [(0, 0), (10, 0), (0, 0)],
                     last_command := some (Tok.cmd 'Z'),
                     control_point := none }) := by
  constructor
  · have ht : tokenize ("M0,0 L10,0 Z") =
        [Tok.cmd 'M', Tok.num ⟨false, [0], false, []⟩, Tok.num ⟨false, [0], false, []⟩,
         Tok.cmd 'L', Tok.num ⟨false, [1, 0], false, []⟩, Tok.num ⟨false, [0], false, []⟩,
         Tok.cmd 'Z'] := by decide
    rw [ht]
    simp [PathParser.run, PathParser.dispatch, PathParser.handle_move_to,
      PathParser.handle_line_to, PathParser.handle_close_path,
      popFloats, popF, popTok, tokFloat, NumLit.val, digitsVal, initState,
      bind, Except.bind, pure, Except.pure]
  · intro hc
    have := hc (by simp)
    simp [Prod.ext_iff] at this

/-- C1 (amended): every run of the PathParser.parse loop that contains no
A/a/Z/z command preserves the invariant "whenever points is nonempty,
current_position equals the most recently appended element of points";
every M/L/H/V/C/S/Q/T handler re-establishes it.  After Z/z the invariant
can fail (the cursor stays put while points[0] is re-appended), and after
A/a it is not guaranteed (the int-truncated, clamped radicand can make the
final arc sample differ from the declared endpoint). -/
theorem C1_theorem {fuel : Nat} {toks : List Tok} {st st' : PState}
    (hAZ : ∀ t ∈ toks, t ≠ .cmd 'A' ∧ t ≠ .cmd 'a' ∧ t ≠ .cmd 'Z' ∧ t ≠ .cmd 'z')
    (h : PathParser.run fuel toks st = .ok st')
    (hinv : cursorInv st) : cursorInv st' :=
  run_cursorInv hAZ h hinv

/-- C1 witness: the amended invariant theorem applied to the concrete
arc-free and close-free path "M0,0 L10,0". -/
theorem C1_witness :
    cursorInv { current_position := (10, 0), points := [(0, 0), (10, 0)],
                last_command := some (Tok.cmd 'L'), control_point := none } :=
  @C1_theorem 6 (tokenize ("M0,0 L10,0")) initState
    { current_position := (10, 0), points := [(0, 0), (10, 0)],
      last_command := some (Tok.cmd 'L'), control_point := none }
    (by decide)
    (by
      have ht : tokenize ("M0,0 L10,0") =
          [Tok.cmd 'M', Tok.num ⟨false, [0], false, []⟩, Tok.num ⟨false, [0], false, []⟩,
           Tok.cmd 'L', Tok.num ⟨false, [1, 0], false, []⟩, Tok.num ⟨false, [0], false, []⟩] := by
        decide
      rw [ht]
      simp [PathParser.run, PathParser.dispatch, PathParser.handle_move_to,
        PathParser.handle_line_to, popFloats, popF, popTok, tokFloat, NumLit.val,
        digitsVal, initState, bind, Except.bind, pure, Except.pure])
    (fun hc => absurd rfl hc)


/-- C6: the Z/z handler appends a point exactly equal to points[0] when
points is nonempty and changes nothing else (cursor, control point and the
earlier points are untouched); when points is empty it raises IndexError,
and the interpreter loop aborts with that error. -/
theorem C6_theorem (st : PState) :
    (st.points = [] → PathParser.handle_close_path st = .error (.indexError, st))
    ∧ (∀ p ps, st.points = p :: ps →
        PathParser.handle_close_path st = .ok { st with points := st.points ++ [p] })
    ∧ (∀ fuel rest c, (c = 'Z' ∨ c = 'z') → st.points = [] →
        PathParser.run (fuel + 1) (.cmd c :: rest) st = .error (.indexError, st)) := by
  refine ⟨?_, ?_, ?_⟩
  · intro h
    simp [PathParser.handle_close_path, h]
  · intro p ps h
    simp [PathParser.handle_close_path, h]
  · intro fuel rest c hc h
    rcases hc with hc | hc <;> subst hc <;>
      simp [PathParser.run, PathParser.dispatch, PathParser.handle_close_path, h]

/-- C6 witness: the close-path behaviour concluded on a concrete nonempty
state. -/
theorem C6_witness :
    PathParser.handle_close_path
      { current_position := (7, 8), points := [(1, 2), (7, 8)],
        last_command := some (Tok.cmd 'L'), control_point := none } =
      .ok { current_position := (7, 8), points := [(1, 2), (7, 8), (1, 2)],
            last_command := some (Tok.cmd 'L'), control_point := none } :=
  (C6_theorem { current_position := (7, 8), points := [(1, 2), (7, 8)],
                last_command := some (Tok.cmd 'L'), control_point := none }).2.1
    (1, 2) [(7, 8)] rfl

/-- C10: a token list whose first token is S/s/T/t is interpreted with
last_command still None, so PathParser.parse raises TypeError from the
membership test None in "CcSs" (resp. "QqTt") instead of falling back to
the current position. -/
theorem C10_theorem (c : Char) (rest : List Tok)
    (h : c = 'S' ∨ c = 's' ∨ c = 'T' ∨ c = 't') :
    PathParser.parseTokens (.cmd c :: rest) = .error (.typeError, initState) := by
  rcases h with h | h | h | h <;> subst h <;>
    simp [PathParser.parseTokens, PathParser.run, PathParser.dispatch,
      PathParser.handle_smooth_cubic_bezier, PathParser.handle_smooth_quadratic_bezier,
      smoothCubicCtrl, smoothQuadCtrl, initState]

/-- C10 witness: the TypeError concluded for the concrete path
"S10,10 20,20". -/
theorem C10_witness :
    PathParser.parse ("S10,10 20,20") = .error (.typeError, initState) := by
  have ht : tokenize ("S10,10 20,20") =
      Tok.cmd 'S' :: [Tok.num ⟨false, [1, 0], false, []⟩, Tok.num ⟨false, [1, 0], false, []⟩,
        Tok.num ⟨false, [2, 0], false, []⟩, Tok.num ⟨false, [2, 0], false, []⟩] := by decide
  rw [PathParser.parse, ht]
  exact C10_theorem 'S'
    [Tok.num ⟨false, [1, 0], false, []⟩, Tok.num ⟨false, [1, 0], false, []⟩,
     Tok.num ⟨false, [2, 0], false, []⟩, Tok.num ⟨false, [2, 0], false, []⟩]
    (Or.inl rfl)

/-- C3: a C/c command with six numeric arguments appends exactly the 11
points of the cubic Bezier formula sampled at t = 0, 0.1, ..., 1.0 (the
sample list has length 11, its first point is the pre-command cursor and
its last point is the declared absolute endpoint), after which
current_position is the endpoint and control_point is the second control
point in absolute coordinates; and the analogous statement for Q/q with
the quadratic formula. -/
theorem C3_theorem :
    (∀ (p : ℝ × ℝ) (x1 y1 x2 y2 x3 y3 : ℝ),
        (generate_cubic_bezier_points p x1 y1 x2 y2 x3 y3).length = 11
        ∧ (generate_cubic_bezier_points p x1 y1 x2 y2 x3 y3).head? = some p
        ∧ (generate_cubic_bezier_points p x1 y1 x2 y2 x3 y3).getLast? = some (x3, y3))
    ∧ (∀ (p : ℝ × ℝ) (x1 y1 x2 y2 : ℝ),
        (generate_quadratic_bezier_points p x1 y1 x2 y2).length = 11
        ∧ (generate_quadratic_bezier_points p x1 y1 x2 y2).head? = some p
        ∧ (generate_quadratic_bezier_points p x1 y1 x2 y2).getLast? = some (x2, y2))
    ∧ (∀ (st : PState) (rest : List Tok) (n1 n2 n3 n4 n5 n6 : NumLit),
        PathParser.handle_cubic_bezier 'C'
            (.num n1 :: .num n2 :: .num n3 :: .num n4 :: .num n5 :: .num n6 :: rest) st =
          .ok (rest,
            { st with
              points := st.points ++ generate_cubic_bezier_points st.current_position
                (n1.val : ℝ) (n2.val : ℝ) (n3.val : ℝ) (n4.val : ℝ) (n5.val : ℝ) (n6.val : ℝ),
              current_position := ((n5.val : ℝ), (n6.val : ℝ)),
              control_point := some ((n3.val : ℝ), (n4.val : ℝ)) }))
    ∧ (∀ (st : PState) (rest : List Tok) (n1 n2 n3 n4 n5 n6 : NumLit),
        PathParser.handle_cubic_bezier 'c'
            (.num n1 :: .num n2 :: .num n3 :: .num n4 :: .num n5 :: .num n6 :: rest) st =
          .ok (rest,
            { st with
              points := st.points ++ generate_cubic_bezier_points st.current_position
                ((n1.val : ℝ) + st.current_position.1) ((n2.val : ℝ) + st.current_position.2)
                ((n3.val : ℝ) + st.current_position.1) ((n4.val : ℝ) + st.current_position.2)
                ((n5.val : ℝ) + st.current_position.1) ((n6.val : ℝ) + st.current_position.2),
              current_position :=
                ((n5.val : ℝ) + st.current_position.1, (n6.val : ℝ) + st.current_position.2),
              control_point :=
                some ((n3.val : ℝ) + st.current_position.1, (n4.val : ℝ) + st.current_position.2) }))
    ∧ (∀ (st : PState) (rest : List Tok) (n1 n2 n3 n4 : NumLit),
        PathParser.handle_quadratic_bezier 'Q'
            (.num n1 :: .num n2 :: .num n3 :: .num n4 :: rest) st =
          .ok (rest,
            { st with
              points := st.points ++ generate_quadratic_bezier_points st.current_position
                (n1.val : ℝ) (n2.val : ℝ) (n3.val : ℝ) (n4.val : ℝ),
              current_position := ((n3.val : ℝ), (n4.val : ℝ)),
              control_point := some ((n1.val : ℝ), (n2.val : ℝ)) }))
    ∧ (∀ (st : PState) (rest : List Tok) (n1 n2 n3 n4 : NumLit),
        PathParser.handle_quadratic_bezier 'q'
            (.num n1 :: .num n2 :: .num n3 :: .num n4 :: rest) st =
          .ok (rest,
            { st with
              points := st.points ++ generate_quadratic_bezier_points st.current_position
                ((n1.val : ℝ) + st.current_position.1) ((n2.val : ℝ) + st.current_position.2)
                ((n3.val : ℝ) + st.current_position.1) ((n4.val : ℝ) + st.current_position.2),
              current_position :=
                ((n3.val : ℝ) + st.current_position.1, (n4.val : ℝ) + st.current_position.2),
              control_point :=
                some ((n1.val : ℝ) + st.current_position.1, (n2.val : ℝ) + st.current_position.2) })) := by
  refine ⟨?_, ?_, ?_, ?_, ?_, ?_⟩
  · exact fun p x1 y1 x2 y2 x3 y3 =>
      ⟨generate_cubic_length p x1 y1 x2 y2 x3 y3, generate_cubic_head p x1 y1 x2 y2 x3 y3,
        generate_cubic_getLast p x1 y1 x2 y2 x3 y3⟩
  · exact fun p x1 y1 x2 y2 =>
      ⟨generate_quadratic_length p x1 y1 x2 y2, generate_quadratic_head p x1 y1 x2 y2,
        generate_quadratic_getLast p x1 y1 x2 y2⟩
  · intro st rest n1 n2 n3 n4 n5 n6
    simp [PathParser.handle_cubic_bezier, popFloats, popF, popTok, tokFloat,
      bind, Except.bind, pure, Except.pure]
  · intro st rest n1 n2 n3 n4 n5 n6
    simp [PathParser.handle_cubic_bezier, popFloats, popF, popTok, tokFloat,
      bind, Except.bind, pure, Except.pure]
  · intro st rest n1 n2 n3 n4
    simp [PathParser.handle_quadratic_bezier, popFloats, popF, popTok, tokFloat,
      bind, Except.bind, pure, Except.pure]
  · intro st rest n1 n2 n3 n4
    simp [PathParser.handle_quadratic_bezier, popFloats, popF, popTok, tokFloat,
      bind, Except.bind, pure, Except.pure]

/-- C4: for an S or s command executed in a state whose last_command is
some token, if that token is one of C, c, S, s then the implicit first
control point used for the tessellation is 2*current_position -
control_point (the reflection of the prior cubic control point through the
cursor), otherwise it is current_position itself; afterwards control_point
is the explicit second control point in absolute coordinates (for the
relative s, the popped pair offset by the cursor).  Analogously for T and
t gated on membership of last_command in Q, q, T, t (where control_point
keeps the implicit control point).  The eight conjuncts cover S, T, s, t,
each in both gate branches. -/
theorem C4_theorem (st : PState) (l : Tok) (hl : st.last_command = some l) :
    (∀ cp : ℝ × ℝ, tokInCcSs l = true → st.control_point = some cp →
      ∀ (rest : List Tok) (n1 n2 n3 n4 : NumLit),
        PathParser.handle_smooth_cubic_bezier 'S'
            (.num n1 :: .num n2 :: .num n3 :: .num n4 :: rest) st =
          .ok (rest,
            { st with
              points := st.points ++ generate_cubic_bezier_points st.current_position
                (2 * st.current_position.1 - cp.1) (2 * st.current_position.2 - cp.2)
                (n1.val : ℝ) (n2.val : ℝ) (n3.val : ℝ) (n4.val : ℝ),
              current_position := ((n3.val : ℝ), (n4.val : ℝ)),
              control_point := some ((n1.val : ℝ), (n2.val : ℝ)) }))
    ∧ (tokInCcSs l = false →
      ∀ (rest : List Tok) (n1 n2 n3 n4 : NumLit),
        PathParser.handle_smooth_cubic_bezier 'S'
            (.num n1 :: .num n2 :: .num n3 :: .num n4 :: rest) st =
          .ok (rest,
            { st with
              points := st.points ++ generate_cubic_bezier_points st.current_position
                st.current_position.1 st.current_position.2
                (n1.val : ℝ) (n2.val : ℝ) (n3.val : ℝ) (n4.val : ℝ),
              current_position := ((n3.val : ℝ), (n4.val : ℝ)),
              control_point := some ((n1.val : ℝ), (n2.val : ℝ)) }))
    ∧ (∀ cp : ℝ × ℝ, tokInQqTt l = true → st.control_point = some cp →
      ∀ (rest : List Tok) (n1 n2 : NumLit),
        PathParser.handle_smooth_quadratic_bezier 'T'
            (.num n1 :: .num n2 :: rest) st =
          .ok (rest,
            { st with
              points := st.points ++ generate_quadratic_bezier_points st.current_position
                (2 * st.current_position.1 - cp.1) (2 * st.current_position.2 - cp.2)
                (n1.val : ℝ) (n2.val : ℝ),
              current_position := ((n1.val : ℝ), (n2.val : ℝ)),
              control_point := some (2 * st.current_position.1 - cp.1,
                                     2 * st.current_position.2 - cp.2) }))
    ∧ (tokInQqTt l = false →
      ∀ (rest : List Tok) (n1 n2 : NumLit),
        PathParser.handle_smooth_quadratic_bezier 'T'
            (.num n1 :: .num n2 :: rest) st =
          .ok (rest,
            { st with
              points := st.points ++ generate_quadratic_bezier_points st.current_position
                st.current_position.1 st.current_position.2
                (n1.val : ℝ) (n2.val : ℝ),
              current_position := ((n1.val : ℝ), (n2.val : ℝ)),
              control_point := some st.current_position }))
    ∧ (∀ cp : ℝ × ℝ, tokInCcSs l = true → st.control_point = some cp →
      ∀ (rest : List Tok) (n1 n2 n3 n4 : NumLit),
        PathParser.handle_smooth_cubic_bezier 's'
            (.num n1 :: .num n2 :: .num n3 :: .num n4 :: rest) st =
          .ok (rest,
            { st with
              points := st.points ++ generate_cubic_bezier_points st.current_position
                (2 * st.current_position.1 - cp.1) (2 * st.current_position.2 - cp.2)
                ((n1.val : ℝ) + st.current_position.1) ((n2.val : ℝ) + st.current_position.2)
                ((n3.val : ℝ) + st.current_position.1) ((n4.val : ℝ) + st.current_position.2),
              current_position :=
                ((n3.val : ℝ) + st.current_position.1, (n4.val : ℝ) + st.current_position.2),
              control_point :=
                some ((n1.val : ℝ) + st.current_position.1,
                      (n2.val : ℝ) + st.current_position.2) }))
    ∧ (tokInCcSs l = false →
      ∀ (rest : List Tok) (n1 n2 n3 n4 : NumLit),
        PathParser.handle_smooth_cubic_bezier 's'
            (.num n1 :: .num n2 :: .num n3 :: .num n4 :: rest) st =
          .ok (rest,
            { st with
              points := st.points ++ generate_cubic_bezier_points st.current_position
                st.current_position.1 st.current_position.2
                ((n1.val : ℝ) + st.current_position.1) ((n2.val : ℝ) + st.current_position.2)
                ((n3.val : ℝ) + st.current_position.1) ((n4.val : ℝ) + st.current_position.2),
              current_position :=
                ((n3.val : ℝ) + st.current_position.1, (n4.val : ℝ) + st.current_position.2),
              control_point :=
                some ((n1.val : ℝ) + st.current_position.1,
                      (n2.val : ℝ) + st.current_position.2) }))
    ∧ (∀ cp : ℝ × ℝ, tokInQqTt l = true → st.control_point = some cp →
      ∀ (rest : List Tok) (n1 n2 : NumLit),
        PathParser.handle_smooth_quadratic_bezier 't'
            (.num n1 :: .num n2 :: rest) st =
          .ok (rest,
            { st with
              points := st.points ++ generate_quadratic_bezier_points st.current_position
                (2 * st.current_position.1 - cp.1) (2 * st.current_position.2 - cp.2)
                ((n1.val : ℝ) + st.current_position.1) ((n2.val : ℝ) + st.current_position.2),
              current_position :=
                ((n1.val : ℝ) + st.current_position.1, (n2.val : ℝ) + st.current_position.2),
              control_point := some (2 * st.current_position.1 - cp.1,
                                     2 * st.current_position.2 - cp.2) }))
    ∧ (tokInQqTt l = false →
      ∀ (rest : List Tok) (n1 n2 : NumLit),
        PathParser.handle_smooth_quadratic_bezier 't'
            (.num n1 :: .num n2 :: rest) st =
          .ok (rest,
            { st with
              points := st.points ++ generate_quadratic_bezier_points st.current_position
                st.current_position.1 st.current_position.2
                ((n1.val : ℝ) + st.current_position.1) ((n2.val : ℝ) + st.current_position.2),
              current_position :=
                ((n1.val : ℝ) + st.current_position.1, (n2.val : ℝ) + st.current_position.2),
              control_point := some st.current_position })) := by
  refine ⟨?_, ?_, ?_, ?_, ?_, ?_, ?_, ?_⟩
  · intro cp hmem hcp rest n1 n2 n3 n4
    simp [PathParser.handle_smooth_cubic_bezier, smoothCubicCtrl, hl, hmem, hcp,
      popFloats, popF, popTok, tokFloat, bind, Except.bind, pure, Except.pure]
  · intro hmem rest n1 n2 n3 n4
    simp [PathParser.handle_smooth_cubic_bezier, smoothCubicCtrl, hl, hmem,
      popFloats, popF, popTok, tokFloat, bind, Except.bind, pure, Except.pure]
  · intro cp hmem hcp rest n1 n2
    simp [PathParser.handle_smooth_quadratic_bezier, smoothQuadCtrl, hl, hmem, hcp,
      popFloats, popF, popTok, tokFloat, bind, Except.bind, pure, Except.pure]
  · intro hmem rest n1 n2
    simp [PathParser.handle_smooth_quadratic_bezier, smoothQuadCtrl, hl, hmem,
      popFloats, popF, popTok, tokFloat, bind, Except.bind, pure, Except.pure]
  · intro cp hmem hcp rest n1 n2 n3 n4
    simp [PathParser.handle_smooth_cubic_bezier, smoothCubicCtrl, hl, hmem, hcp,
      popFloats, popF, popTok, tokFloat, bind, Except.bind, pure, Except.pure]
  · intro hmem rest n1 n2 n3 n4
    simp [PathParser.handle_smooth_cubic_bezier, smoothCubicCtrl, hl, hmem,
      popFloats, popF, popTok, tokFloat, bind, Except.bind, pure, Except.pure]
  · intro cp hmem hcp rest n1 n2
    simp [PathParser.handle_smooth_quadratic_bezier, smoothQuadCtrl, hl, hmem, hcp,
      popFloats, popF, popTok, tokFloat, bind, Except.bind, pure, Except.pure]
  · intro hmem rest n1 n2
    simp [PathParser.handle_smooth_quadratic_bezier, smoothQuadCtrl, hl, hmem,
      popFloats, popF, popTok, tokFloat, bind, Except.bind, pure, Except.pure]

/-- C4 witness: the reflection case concluded for an S command following a
C command, at cursor (3, 4) with prior control point (1, 2). -/
theorem C4_witness :
    PathParser.handle_smooth_cubic_bezier 'S'
        [Tok.num ⟨false, [6], false, []⟩, Tok.num ⟨false, [7], false, []⟩,
         Tok.num ⟨false, [8], false, []⟩, Tok.num ⟨false, [9], false, []⟩]
        { current_position := (3, 4), points := [(3, 4)],
          last_command := some (Tok.cmd 'C'), control_point := some (1, 2) } =
      .ok ([],
        { current_position := ((NumLit.val ⟨false, [8], false, []⟩ : ℝ),
                               (NumLit.val ⟨false, [9], false, []⟩ : ℝ)),
          points := [(3, 4)] ++ generate_cubic_bezier_points (3, 4)
            (2 * 3 - 1) (2 * 4 - 2)
            (NumLit.val ⟨false, [6], false, []⟩ : ℝ) (NumLit.val ⟨false, [7], false, []⟩ : ℝ)
            (NumLit.val ⟨false, [8], false, []⟩ : ℝ) (NumLit.val ⟨false, [9], false, []⟩ : ℝ),
          last_command := some (Tok.cmd 'C'),
          control_point := some ((NumLit.val ⟨false, [6], false, []⟩ : ℝ),
                                 (NumLit.val ⟨false, [7], false, []⟩ : ℝ)) }) := by
  have h := (C4_theorem
    { current_position := (3, 4), points := [(3, 4)],
      last_command := some (Tok.cmd 'C'), control_point := some (1, 2) }
    (Tok.cmd 'C') rfl).1 (1, 2) rfl rfl []
    ⟨false, [6], false, []⟩ ⟨false, [7], false, []⟩ ⟨false, [8], false, []⟩ ⟨false, [9], false, []⟩
  simpa using h


/-- An M/m/L/l/H/h/V/v command with its full numeric arguments (for the
simple moveto/lineto paths of claim C2). -/
inductive MLHVCmd where
  | M (x y : NumLit)
  | m (x y : NumLit)
  | L (x y : NumLit)
  | l (x y : NumLit)
  | H (x : NumLit)
  | h (x : NumLit)
  | V (y : NumLit)
  | v (y : NumLit)

/-- The token list of a path consisting of the given commands, each letter
followed by its full arguments. -/
def encodeMLHV : List MLHVCmd → List Tok
  | [] => []
  | .M x y :: cs => .cmd 'M' :: .num x :: .num y :: encodeMLHV cs
  | .m x y :: cs => .cmd 'm' :: .num x :: .num y :: encodeMLHV cs
  | .L x y :: cs => .cmd 'L' :: .num x :: .num y :: encodeMLHV cs
  | .l x y :: cs => .cmd 'l' :: .num x :: .num y :: encodeMLHV cs
  | .H x :: cs => .cmd 'H' :: .num x :: encodeMLHV cs
  | .h x :: cs => .cmd 'h' :: .num x :: encodeMLHV cs
  | .V y :: cs => .cmd 'V' :: .num y :: encodeMLHV cs
  | .v y :: cs => .cmd 'v' :: .num y :: encodeMLHV cs

/-- The cumulative absolute position after one command, as the claim
describes it: a relative command offsets the cursor, an absolute command
replaces the affected coordinate or coordinates. -/
noncomputable def mlhvStep (p : ℝ × ℝ) : MLHVCmd → ℝ × ℝ
  | .M x y => ((x.val : ℝ), (y.val : ℝ))
  | .m x y => (p.1 + (x.val : ℝ), p.2 + (y.val : ℝ))
  | .L x y => ((x.val : ℝ), (y.val : ℝ))
  | .l x y => (p.1 + (x.val : ℝ), p.2 + (y.val : ℝ))
  | .H x => ((x.val : ℝ), p.2)
  | .h x => (p.1 + (x.val : ℝ), p.2)
  | .V y => (p.1, (y.val : ℝ))
  | .v y => (p.1, p.2 + (y.val : ℝ))

/-- The expected emitted points: one cumulative position per command. -/
noncomputable def mlhvPoints (p : ℝ × ℝ) : List MLHVCmd → List (ℝ × ℝ)
  | [] => []
  | c :: cs => mlhvStep p c :: mlhvPoints (mlhvStep p c) cs

/-- The expected final cursor. -/
noncomputable def mlhvFinal (p : ℝ × ℝ) : List MLHVCmd → ℝ × ℝ
  | [] => p
  | c :: cs => mlhvFinal (mlhvStep p c) cs

theorem run_encodeMLHV (cs : List MLHVCmd) :
    ∀ (fuel : Nat) (st : PState), (encodeMLHV cs).length ≤ fuel →
      ∃ st', PathParser.run fuel (encodeMLHV cs) st = .ok st'
        ∧ st'.points = st.points ++ mlhvPoints st.current_position cs
        ∧ st'.current_position = mlhvFinal st.current_position cs := by
  induction cs with
  | nil =>
    intro fuel st _
    cases fuel <;>
      exact ⟨st, by simp [encodeMLHV, PathParser.run, mlhvPoints, mlhvFinal]⟩
  | cons c cs ih =>
    intro fuel st hfuel
    cases c with
    | M x y =>
      cases fuel with
      | zero => simp [encodeMLHV] at hfuel
      | succ f =>
        obtain ⟨st', h1, h2, h3⟩ := ih f
          { current_position := ((x.val : ℝ), (y.val : ℝ)),
            points := st.points ++ [((x.val : ℝ), (y.val : ℝ))],
            last_command := some (Tok.cmd 'M'), control_point := st.control_point }
          (by simp [encodeMLHV] at hfuel ⊢; omega)
        refine ⟨st', ?_, ?_, ?_⟩
        · simp only [encodeMLHV, PathParser.run, PathParser.dispatch,
            PathParser.handle_move_to, popFloats, popF, popTok, tokFloat,
            bind, Except.bind, pure, Except.pure]
          simp only [Char.reduceEq, or_self, if_false, if_true, or_false, false_or]
          exact h1
        · rw [h2]
          simp [mlhvPoints, mlhvStep, List.append_assoc]
        · rw [h3]
          simp [mlhvFinal, mlhvStep]
    | m x y =>
      cases fuel with
      | zero => simp [encodeMLHV] at hfuel
      | succ f =>
        obtain ⟨st', h1, h2, h3⟩ := ih f
          { current_position := (st.current_position.1 + (x.val : ℝ), st.current_position.2 + (y.val : ℝ)),
            points := st.points ++ [(st.current_position.1 + (x.val : ℝ), st.current_position.2 + (y.val : ℝ))],
            last_command := some (Tok.cmd 'm'), control_point := st.control_point }
          (by simp [encodeMLHV] at hfuel ⊢; omega)
        refine ⟨st', ?_, ?_, ?_⟩
        · simp only [encodeMLHV, PathParser.run, PathParser.dispatch,
            PathParser.handle_move_to, popFloats, popF, popTok, tokFloat,
            bind, Except.bind, pure, Except.pure]
          simp only [Char.reduceEq, or_self, if_false, if_true, or_false, false_or,
            or_true, true_or]
          exact h1
        · rw [h2]
          simp [mlhvPoints, mlhvStep, List.append_assoc]
        · rw [h3]
          simp [mlhvFinal, mlhvStep]
    | L x y =>
      cases fuel with
      | zero => simp [encodeMLHV] at hfuel
      | succ f =>
        obtain ⟨st', h1, h2, h3⟩ := ih f
          { current_position := ((x.val : ℝ), (y.val : ℝ)),
            points := st.points ++ [((x.val : ℝ), (y.val : ℝ))],
            last_command := some (Tok.cmd 'L'), control_point := st.control_point }
          (by simp [encodeMLHV] at hfuel ⊢; omega)
        refine ⟨st', ?_, ?_, ?_⟩
        · simp only [encodeMLHV, PathParser.run, PathParser.dispatch,
            PathParser.handle_line_to, popFloats, popF, popTok, tokFloat,
            bind, Except.bind, pure, Except.pure]
          simp only [Char.reduceEq, or_self, if_false, if_true, or_false, false_or,
            or_true, true_or]
          exact h1
        · rw [h2]
          simp [mlhvPoints, mlhvStep, List.append_assoc]
        · rw [h3]
          simp [mlhvFinal, mlhvStep]
    | l x y =>
      cases fuel with
      | zero => simp [encodeMLHV] at hfuel
      | succ f =>
        obtain ⟨st', h1, h2, h3⟩ := ih f
          { current_position := (st.current_position.1 + (x.val : ℝ), st.current_position.2 + (y.val : ℝ)),
            points := st.points ++ [(st.current_position.1 + (x.val : ℝ), st.current_position.2 + (y.val : ℝ))],
            last_command := some (Tok.cmd 'l'), control_point := st.control_point }
          (by simp [encodeMLHV] at hfuel ⊢; omega)
        refine ⟨st', ?_, ?_, ?_⟩
        · simp only [encodeMLHV, PathParser.run, PathParser.dispatch,
            PathParser.handle_line_to, popFloats, popF, popTok, tokFloat,
            bind, Except.bind, pure, Except.pure]
          simp only [Char.reduceEq, or_self, if_false, if_true, or_false, false_or,
            or_true, true_or]
          exact h1
        · rw [h2]
          simp [mlhvPoints, mlhvStep, List.append_assoc]
        · rw [h3]
          simp [mlhvFinal, mlhvStep]
    | H x =>
      cases fuel with
      | zero => simp [encodeMLHV] at hfuel
      | succ f =>
        obtain ⟨st', h1, h2, h3⟩ := ih f
          { current_position := ((x.val : ℝ), st.current_position.2),
            points := st.points ++ [((x.val : ℝ), st.current_position.2)],
            last_command := some (Tok.cmd 'H'), control_point := st.control_point }
          (by simp [encodeMLHV] at hfuel ⊢; omega)
        refine ⟨st', ?_, ?_, ?_⟩
        · simp only [encodeMLHV, PathParser.run, PathParser.dispatch,
            PathParser.handle_horizontal_line_to, popFloats, popF, popTok, tokFloat,
            bind, Except.bind, pure, Except.pure]
          simp only [Char.reduceEq, or_self, if_false, if_true, or_false, false_or,
            or_true, true_or]
          exact h1
        · rw [h2]
          simp [mlhvPoints, mlhvStep, List.append_assoc]
        · rw [h3]
          simp [mlhvFinal, mlhvStep]
    | h x =>
      cases fuel with
      | zero => simp [encodeMLHV] at hfuel
      | succ f =>
        obtain ⟨st', h1, h2, h3⟩ := ih f
          { current_position := (st.current_position.1 + (x.val : ℝ), st.current_position.2),
            points := st.points ++ [(st.current_position.1 + (x.val : ℝ), st.current_position.2)],
            last_command := some (Tok.cmd 'h'), control_point := st.control_point }
          (by simp [encodeMLHV] at hfuel ⊢; omega)
        refine ⟨st', ?_, ?_, ?_⟩
        · simp only [encodeMLHV, PathParser.run, PathParser.dispatch,
            PathParser.handle_horizontal_line_to, popFloats, popF, popTok, tokFloat,
            bind, Except.bind, pure, Except.pure]
          simp only [Char.reduceEq, or_self, if_false, if_true, or_false, false_or,
            or_true, true_or]
          exact h1
        · rw [h2]
          simp [mlhvPoints, mlhvStep, List.append_assoc]
        · rw [h3]
          simp [mlhvFinal, mlhvStep]
    | V y =>
      cases fuel with
      | zero => simp [encodeMLHV] at hfuel
      | succ f =>
        obtain ⟨st', h1, h2, h3⟩ := ih f
          { current_position := (st.current_position.1, (y.val : ℝ)),
            points := st.points ++ [(st.current_position.1, (y.val : ℝ))],
            last_command := some (Tok.cmd 'V'), control_point := st.control_point }
          (by simp [encodeMLHV] at hfuel ⊢; omega)
        refine ⟨st', ?_, ?_, ?_⟩
        · simp only [encodeMLHV, PathParser.run, PathParser.dispatch,
            PathParser.handle_vertical_line_to, popFloats, popF, popTok, tokFloat,
            bind, Except.bind, pure, Except.pure]
          simp only [Char.reduceEq, or_self, if_false, if_true, or_false, false_or,
            or_true, true_or]
          exact h1
        · rw [h2]
          simp [mlhvPoints, mlhvStep, List.append_assoc]
        · rw [h3]
          simp [mlhvFinal, mlhvStep]
    | v y =>
      cases fuel with
      | zero => simp [encodeMLHV] at hfuel
      | succ f =>
        obtain ⟨st', h1, h2, h3⟩ := ih f
          { current_position := (st.current_position.1, st.current_position.2 + (y.val : ℝ)),
            points := st.points ++ [(st.current_position.1, st.current_position.2 + (y.val : ℝ))],
            last_command := some (Tok.cmd 'v'), control_point := st.control_point }
          (by simp [encodeMLHV] at hfuel ⊢; omega)
        refine ⟨st', ?_, ?_, ?_⟩
        · simp only [encodeMLHV, PathParser.run, PathParser.dispatch,
            PathParser.handle_vertical_line_to, popFloats, popF, popTok, tokFloat,
            bind, Except.bind, pure, Except.pure]
          simp only [Char.reduceEq, or_self, if_false, if_true, or_false, false_or,
            or_true, true_or]
          exact h1
        · rw [h2]
          simp [mlhvPoints, mlhvStep, List.append_assoc]
        · rw [h3]
          simp [mlhvFinal, mlhvStep]

theorem mlhvPoints_length (cs : List MLHVCmd) :
    ∀ p : ℝ × ℝ, (mlhvPoints p cs).length = cs.length := by
  induction cs with
  | nil => intro p; simp [mlhvPoints]
  | cons c cs ih => intro p; simp [mlhvPoints, ih]

/-- C2: a token list consisting only of M/m/L/l/H/h/V/v commands, each
followed by its full arguments, parses successfully into a points list with
exactly one point per command, each point being the cumulative absolute
position starting from (0, 0), where relative commands offset the cursor
and absolute commands replace the affected coordinate or coordinates. -/
theorem C2_theorem (cs : List MLHVCmd) :
    PathParser.parseTokens (encodeMLHV cs) = .ok (mlhvPoints (0, 0) cs)
    ∧ (mlhvPoints (0, 0) cs).length = cs.length := by
  constructor
  · obtain ⟨st', h1, h2, h3⟩ := run_encodeMLHV cs (encodeMLHV cs).length initState le_rfl
    rw [PathParser.parseTokens, h1]
    simp only [h2]
    simp [initState]
  · exact mlhvPoints_length cs (0, 0)


theorem popFloats_short {k : Nat} {ts : List Tok}
    (hnum : ∀ t ∈ ts, ∃ n, t = Tok.num n) (hlen : ts.length < k) :
    popFloats k ts = .error .indexError := by
  induction k generalizing ts with
  | zero => omega
  | succ k ih =>
    cases ts with
    | nil => simp [popFloats, popF, popTok, bind, Except.bind]
    | cons t rest =>
      obtain ⟨n, rfl⟩ := hnum t (List.mem_cons_self t rest)
      simp only [popFloats, popF, popTok, tokFloat, bind, Except.bind, pure, Except.pure]
      rw [ih (fun u hu => hnum u (List.mem_cons_of_mem _ hu)) (by simpa using hlen)]

theorem popFloats_all {ts : List Tok}
    (hnum : ∀ t ∈ ts, ∃ n, t = Tok.num n) :
    ∃ vals, popFloats ts.length ts = .ok (vals, []) ∧ vals.length = ts.length := by
  induction ts with
  | nil => exact ⟨[], by simp [popFloats], rfl⟩
  | cons t rest ih =>
    obtain ⟨n, rfl⟩ := hnum t (List.mem_cons_self t rest)
    obtain ⟨vals, hv, hlen⟩ := ih (fun u hu => hnum u (List.mem_cons_of_mem _ hu))
    refine ⟨(n.val : ℝ) :: vals, ?_, by simp [hlen]⟩
    simp only [List.length_cons, popFloats, popF, popTok, tokFloat,
      bind, Except.bind, pure, Except.pure]
    rw [hv]

theorem handle_move_to_trunc {c : Char} {ts : List Tok} {st : PState}
    (hnum : ∀ t ∈ ts, ∃ n, t = Tok.num n) (hlen : ts.length < 2) :
    PathParser.handle_move_to c ts st = .error (.indexError, st) := by
  unfold PathParser.handle_move_to
  rw [popFloats_short hnum hlen]

theorem handle_line_to_trunc {c : Char} {ts : List Tok} {st : PState}
    (hnum : ∀ t ∈ ts, ∃ n, t = Tok.num n) (hlen : ts.length < 2) :
    PathParser.handle_line_to c ts st = .error (.indexError, st) := by
  unfold PathParser.handle_line_to
  rw [popFloats_short hnum hlen]

theorem handle_horizontal_trunc {c : Char} {ts : List Tok} {st : PState}
    (hlen : ts.length < 1) :
    PathParser.handle_horizontal_line_to c ts st = .error (.indexError, st) := by
  have : ts = [] := List.length_eq_zero.mp (by omega)
  subst this
  simp [PathParser.handle_horizontal_line_to, popF, popTok, bind, Except.bind]

theorem handle_vertical_trunc {c : Char} {ts : List Tok} {st : PState}
    (hlen : ts.length < 1) :
    PathParser.handle_vertical_line_to c ts st = .error (.indexError, st) := by
  have : ts = [] := List.length_eq_zero.mp (by omega)
  subst this
  simp [PathParser.handle_vertical_line_to, popF, popTok, bind, Except.bind]

theorem handle_cubic_trunc {c : Char} {ts : List Tok} {st : PState}
    (hnum : ∀ t ∈ ts, ∃ n, t = Tok.num n) (hlen : ts.length < 6) :
    PathParser.handle_cubic_bezier c ts st = .error (.indexError, st) := by
  unfold PathParser.handle_cubic_bezier
  rw [popFloats_short hnum hlen]

theorem handle_quadratic_trunc {c : Char} {ts : List Tok} {st : PState}
    (hnum : ∀ t ∈ ts, ∃ n, t = Tok.num n) (hlen : ts.length < 4) :
    PathParser.handle_quadratic_bezier c ts st = .error (.indexError, st) := by
  unfold PathParser.handle_quadratic_bezier
  rw [popFloats_short hnum hlen]

theorem handle_smooth_cubic_trunc {c : Char} {ts : List Tok} {st : PState} {icp : ℝ × ℝ}
    (hg : smoothCubicCtrl st = .ok icp)
    (hnum : ∀ t ∈ ts, ∃ n, t = Tok.num n) (hlen : ts.length < 4) :
    PathParser.handle_smooth_cubic_bezier c ts st =
      .error (.indexError, { st with control_point := some icp }) := by
  unfold PathParser.handle_smooth_cubic_bezier
  rw [hg, popFloats_short hnum hlen]

theorem handle_smooth_quadratic_trunc {c : Char} {ts : List Tok} {st : PState} {icp : ℝ × ℝ}
    (hg : smoothQuadCtrl st = .ok icp)
    (hnum : ∀ t ∈ ts, ∃ n, t = Tok.num n) (hlen : ts.length < 2) :
    PathParser.handle_smooth_quadratic_bezier c ts st =
      .error (.indexError, { st with control_point := some icp }) := by
  unfold PathParser.handle_smooth_quadratic_bezier
  rw [hg, popFloats_short hnum hlen]

theorem handle_arc_trunc {c : Char} {ts : List Tok} {st : PState}
    (hnum : ∀ t ∈ ts, ∃ n, t = Tok.num n ∧ n.hasDot = false) (hlen : ts.length < 7) :
    PathParser.handle_arc c ts st = .error (.indexError, st) := by
  have hnum' : ∀ t ∈ ts, ∃ n, t = Tok.num n := fun t ht => ⟨(hnum t ht).choose, (hnum t ht).choose_spec.1⟩
  rcases ts with _ | ⟨t1, _ | ⟨t2, _ | ⟨t3, _ | ⟨t4, _ | ⟨t5, _ | ⟨t6, rest⟩⟩⟩⟩⟩⟩
  · unfold PathParser.handle_arc
    rw [popFloats_short hnum' (by simp)]
  · unfold PathParser.handle_arc
    rw [popFloats_short hnum' (by simp)]
  · unfold PathParser.handle_arc
    rw [popFloats_short hnum' (by simp)]
  · unfold PathParser.handle_arc
    rw [popFloats_short hnum' (by simp)]
  · unfold PathParser.handle_arc
    rw [popFloats_short hnum' (by simp)]
  · obtain ⟨n1, rfl, _⟩ := hnum t1 (by simp)
    obtain ⟨n2, rfl, _⟩ := hnum t2 (by simp)
    obtain ⟨n3, rfl, _⟩ := hnum t3 (by simp)
    obtain ⟨n4, rfl, _⟩ := hnum t4 (by simp)
    obtain ⟨n5, rfl, _⟩ := hnum t5 (by simp)
    simp [PathParser.handle_arc, popFloats, popF, popI, popTok, tokFloat,
      bind, Except.bind, pure, Except.pure]
  · rcases rest with _ | ⟨t7, rest'⟩
    · obtain ⟨n1, rfl, _⟩ := hnum t1 (by simp)
      obtain ⟨n2, rfl, _⟩ := hnum t2 (by simp)
      obtain ⟨n3, rfl, _⟩ := hnum t3 (by simp)
      obtain ⟨n4, rfl, _⟩ := hnum t4 (by simp)
      obtain ⟨n5, rfl, _⟩ := hnum t5 (by simp)
      obtain ⟨n6, rfl, h6⟩ := hnum t6 (by simp)
      simp [PathParser.handle_arc, popFloats, popF, popI, popTok, tokFloat, tokInt,
        NumLit.intVal, h6, bind, Except.bind, pure, Except.pure]
    · simp at hlen
      omega

/-- The fixed number of numeric tokens each command letter pops
(spec section 4.2): M/L/T two, H/V one, Q/S four, C six, A seven, Z none. -/
def cmdArity (c : Char) : Option Nat :=
  if c = 'M' ∨ c = 'm' ∨ c = 'L' ∨ c = 'l' ∨ c = 'T' ∨ c = 't' then some 2
  else if c = 'H' ∨ c = 'h' ∨ c = 'V' ∨ c = 'v' then some 1
  else if c = 'Q' ∨ c = 'q' ∨ c = 'S' ∨ c = 's' then some 4
  else if c = 'C' ∨ c = 'c' then some 6
  else if c = 'A' ∨ c = 'a' then some 7
  else if c = 'Z' ∨ c = 'z' then some 0
  else none

/-- C5 (amended): a command letter of arity k at least 1 that sits at the
end of the token stream followed by fewer than k numeric arguments (integer
literals) makes the interpreter fail with IndexError, and the truncated
command appends no partial point to points before failing (for S/s and T/t
the reflection gate must pass, which happens before any argument is
popped). -/
theorem C5_theorem (c : Char) (k : Nat) (hk : cmdArity c = some k) (hk1 : 0 < k)
    (args : List Tok) (hnum : ∀ t ∈ args, ∃ n, t = Tok.num n ∧ n.hasDot = false)
    (hlen : args.length < k) (st : PState)
    (hS : c = 'S' ∨ c = 's' → ∃ icp, smoothCubicCtrl st = .ok icp)
    (hT : c = 'T' ∨ c = 't' → ∃ icp, smoothQuadCtrl st = .ok icp) (fuel : Nat) :
    ∃ st', PathParser.run (fuel + 1) (.cmd c :: args) st = .error (.indexError, st')
      ∧ st'.points = st.points := by
  have hnum' : ∀ t ∈ args, ∃ n, t = Tok.num n :=
    fun t ht => ⟨(hnum t ht).choose, (hnum t ht).choose_spec.1⟩
  unfold cmdArity at hk
  by_cases h1 : c = 'M' ∨ c = 'm' ∨ c = 'L' ∨ c = 'l' ∨ c = 'T' ∨ c = 't'
  · rw [if_pos h1] at hk
    have hk2 : k = 2 := by simpa using hk.symm
    subst hk2
    rcases h1 with h | h | h | h | h | h <;> subst h
    · exact ⟨st, by
        simp only [PathParser.run, PathParser.dispatch]
        simp only [Char.reduceEq, or_self, or_false, false_or, if_true, if_false,
          true_or, or_true]
        rw [handle_move_to_trunc hnum' hlen], rfl⟩
    · exact ⟨st, by
        simp only [PathParser.run, PathParser.dispatch]
        simp only [Char.reduceEq, or_self, or_false, false_or, if_true, if_false,
          true_or, or_true]
        rw [handle_move_to_trunc hnum' hlen], rfl⟩
    · exact ⟨st, by
        simp only [PathParser.run, PathParser.dispatch]
        simp only [Char.reduceEq, or_self, or_false, false_or, if_true, if_false,
          true_or, or_true]
        rw [handle_line_to_trunc hnum' hlen], rfl⟩
    · exact ⟨st, by
        simp only [PathParser.run, PathParser.dispatch]
        simp only [Char.reduceEq, or_self, or_false, false_or, if_true, if_false,
          true_or, or_true]
        rw [handle_line_to_trunc hnum' hlen], rfl⟩
    · obtain ⟨icp, hg⟩ := hT (Or.inl rfl)
      exact ⟨{ st with control_point := some icp }, by
        simp only [PathParser.run, PathParser.dispatch]
        simp only [Char.reduceEq, or_self, or_false, false_or, if_true, if_false,
          true_or, or_true]
        rw [handle_smooth_quadratic_trunc hg hnum' hlen], rfl⟩
    · obtain ⟨icp, hg⟩ := hT (Or.inr rfl)
      exact ⟨{ st with control_point := some icp }, by
        simp only [PathParser.run, PathParser.dispatch]
        simp only [Char.reduceEq, or_self, or_false, false_or, if_true, if_false,
          true_or, or_true]
        rw [handle_smooth_quadratic_trunc hg hnum' hlen], rfl⟩
  rw [if_neg h1] at hk
  by_cases h2 : c = 'H' ∨ c = 'h' ∨ c = 'V' ∨ c = 'v'
  · rw [if_pos h2] at hk
    have hk2 : k = 1 := by simpa using hk.symm
    subst hk2
    rcases h2 with h | h | h | h <;> subst h
    · exact ⟨st, by
        simp only [PathParser.run, PathParser.dispatch]
        simp only [Char.reduceEq, or_self, or_false, false_or, if_true, if_false,
          true_or, or_true]
        rw [handle_horizontal_trunc hlen], rfl⟩
    · exact ⟨st, by
        simp only [PathParser.run, PathParser.dispatch]
        simp only [Char.reduceEq, or_self, or_false, false_or, if_true, if_false,
          true_or, or_true]
        rw [handle_horizontal_trunc hlen], rfl⟩
    · exact ⟨st, by
        simp only [PathParser.run, PathParser.dispatch]
        simp only [Char.reduceEq, or_self, or_false, false_or, if_true, if_false,
          true_or, or_true]
        rw [handle_vertical_trunc hlen], rfl⟩
    · exact ⟨st, by
        simp only [PathParser.run, PathParser.dispatch]
        simp only [Char.reduceEq, or_self, or_false, false_or, if_true, if_false,
          true_or, or_true]
        rw [handle_vertical_trunc hlen], rfl⟩
  rw [if_neg h2] at hk
  by_cases h3 : c = 'Q' ∨ c = 'q' ∨ c = 'S' ∨ c = 's'
  · rw [if_pos h3] at hk
    have hk2 : k = 4 := by simpa using hk.symm
    subst hk2
    rcases h3 with h | h | h | h <;> subst h
    · exact ⟨st, by
        simp only [PathParser.run, PathParser.dispatch]
        simp only [Char.reduceEq, or_self, or_false, false_or, if_true, if_false,
          true_or, or_true]
        rw [handle_quadratic_trunc hnum' hlen], rfl⟩
    · exact ⟨st, by
        simp only [PathParser.run, PathParser.dispatch]
        simp only [Char.reduceEq, or_self, or_false, false_or, if_true, if_false,
          true_or, or_true]
        rw [handle_quadratic_trunc hnum' hlen], rfl⟩
    · obtain ⟨icp, hg⟩ := hS (Or.inl rfl)
      exact ⟨{ st with control_point := some icp }, by
        simp only [PathParser.run, PathParser.dispatch]
        simp only [Char.reduceEq, or_self, or_false, false_or, if_true, if_false,
          true_or, or_true]
        rw [handle_smooth_cubic_trunc hg hnum' hlen], rfl⟩
    · obtain ⟨icp, hg⟩ := hS (Or.inr rfl)
      exact ⟨{ st with control_point := some icp }, by
        simp only [PathParser.run, PathParser.dispatch]
        simp only [Char.reduceEq, or_self, or_false, false_or, if_true, if_false,
          true_or, or_true]
        rw [handle_smooth_cubic_trunc hg hnum' hlen], rfl⟩
  rw [if_neg h3] at hk
  by_cases h4 : c = 'C' ∨ c = 'c'
  · rw [if_pos h4] at hk
    have hk2 : k = 6 := by simpa using hk.symm
    subst hk2
    rcases h4 with h | h <;> subst h
    · exact ⟨st, by
        simp only [PathParser.run, PathParser.dispatch]
        simp only [Char.reduceEq, or_self, or_false, false_or, if_true, if_false,
          true_or, or_true]
        rw [handle_cubic_trunc hnum' hlen], rfl⟩
    · exact ⟨st, by
        simp only [PathParser.run, PathParser.dispatch]
        simp only [Char.reduceEq, or_self, or_false, false_or, if_true, if_false,
          true_or, or_true]
        rw [handle_cubic_trunc hnum' hlen], rfl⟩
  rw [if_neg h4] at hk
  by_cases h5 : c = 'A' ∨ c = 'a'
  · rw [if_pos h5] at hk
    have hk2 : k = 7 := by simpa using hk.symm
    subst hk2
    rcases h5 with h | h <;> subst h
    · exact ⟨st, by
        simp only [PathParser.run, PathParser.dispatch]
        simp only [Char.reduceEq, or_self, or_false, false_or, if_true, if_false,
          true_or, or_true]
        rw [handle_arc_trunc hnum hlen], rfl⟩
    · exact ⟨st, by
        simp only [PathParser.run, PathParser.dispatch]
        simp only [Char.reduceEq, or_self, or_false, false_or, if_true, if_false,
          true_or, or_true]
        rw [handle_arc_trunc hnum hlen], rfl⟩
  rw [if_neg h5] at hk
  by_cases h6 : c = 'Z' ∨ c = 'z'
  · rw [if_pos h6] at hk
    have : k = 0 := by simpa using hk.symm
    omega
  rw [if_neg h6] at hk
  exact absurd hk (by simp)

/-- C5 counterexample: in "M0,0 L5 L6,7" the first L is followed by fewer
numeric tokens than its arity, but PathParser.parse fails with ValueError
(float() applied to the following command letter "L"), not with an
index/underflow error; the truncated command still appends no partial
point (points stays [(0, 0)]). -/
theorem C5_counterexample :
    PathParser.parse ("M0,0 L5 L6,7") =
      .error (.valueError,
        { current_position := (0, 0), points := [(0, 0)],
          last_command := some (Tok.cmd 'M'), control_point := none })
    ∧ Err.valueError ≠ Err.indexError := by
  constructor
  · have ht : tokenize ("M0,0 L5 L6,7") =
        [Tok.cmd 'M', Tok.num ⟨false, [0], false, []⟩, Tok.num ⟨false, [0], false, []⟩,
         Tok.cmd 'L', Tok.num ⟨false, [5], false, []⟩,
         Tok.cmd 'L', Tok.num ⟨false, [6], false, []⟩, Tok.num ⟨false, [7], false, []⟩] := by
      decide
    rw [PathParser.parse, ht]
    simp [PathParser.parseTokens, PathParser.run, PathParser.dispatch,
      PathParser.handle_move_to, PathParser.handle_line_to,
      popFloats, popF, popTok, tokFloat, NumLit.val, digitsVal, initState,
      bind, Except.bind, pure, Except.pure]
  · decide

/-- C5 witness: the amended truncation theorem applied to the concrete
truncated command "L 5" at the end of the stream (the claim's example
"M0,0 L5" after its M command has executed). -/
theorem C5_witness :
    ∃ st', PathParser.run 1
        [Tok.cmd 'L', Tok.num ⟨false, [5], false, []⟩]
        { current_position := (0, 0), points := [(0, 0)],
          last_command := some (Tok.cmd 'M'), control_point := none } =
        .error (.indexError, st')
      ∧ st'.points = [(0, 0)] :=
  C5_theorem 'L' 2 rfl (by norm_num)
    [Tok.num ⟨false, [5], false, []⟩]
    (by
      intro t ht
      rw [List.mem_singleton] at ht
      exact ⟨⟨false, [5], false, []⟩, ht, rfl⟩)
    (by simp)
    { current_position := (0, 0), points := [(0, 0)],
      last_command := some (Tok.cmd 'M'), control_point := none }
    (fun h => by rcases h with h | h <;> exact absurd h (by decide))
    (fun h => by rcases h with h | h <;> exact absurd h (by decide))
    0


/-- C7 (code bug): PathParser._handle_arc converts the first five popped
tokens (rx, ry, x_rot, large_arc, sweep) with float() and the endpoint
coordinates x, y with int() - the i < 5 split is misplaced relative to the
claim, the function's own docstring (large_arc/sweep documented as int
flags) and the Renderer's inline interpreter.  Consequently the arc with
fractional endpoint "A5,5 0 0 1 10.5,20.5" raises ValueError instead of
parsing. -/
theorem C7_theorem :
    PathParser.parse ("M0,0 A5,5 0 0 1 10.5,20.5") =
      .error (.valueError,
        { current_position := (0, 0), points := [(0, 0)],
          last_command := some (Tok.cmd 'M'), control_point := none }) := by
  have ht : tokenize ("M0,0 A5,5 0 0 1 10.5,20.5") =
      [Tok.cmd 'M', Tok.num ⟨false, [0], false, []⟩, Tok.num ⟨false, [0], false, []⟩,
       Tok.cmd 'A', Tok.num ⟨false, [5], false, []⟩, Tok.num ⟨false, [5], false, []⟩,
       Tok.num ⟨false, [0], false, []⟩, Tok.num ⟨false, [0], false, []⟩,
       Tok.num ⟨false, [1], false, []⟩,
       Tok.num ⟨false, [1, 0], true, [5]⟩, Tok.num ⟨false, [2, 0], true, [5]⟩] := by
    decide
  rw [PathParser.parse, ht]
  simp [PathParser.parseTokens, PathParser.run, PathParser.dispatch,
    PathParser.handle_move_to, PathParser.handle_arc,
    popFloats, popF, popI, popTok, tokFloat, tokInt, NumLit.intVal,
    NumLit.val, digitsVal, initState, bind, Except.bind, pure, Except.pure]

/-- C8 counterexample: with nonzero radii rx = ry = 5 but the endpoint
equal to the start point, the denominator rx^2 y1p^2 + ry^2 x1p^2 of the
radicand quotient is zero and PathParser.generate_arc_points raises
ZeroDivisionError - the conversion does fail on this degenerate input. -/
theorem C8_counterexample :
    PathParser.generate_arc_points ((0 : ℝ), (0 : ℝ)) 5 5 0 0 1 ((0 : ℝ), (0 : ℝ)) =
      .error .zeroDivisionError := by
  simp [PathParser.generate_arc_points, PathParser.arcRadicand, arcRadicandQuot,
    divE, bind, Except.bind, pure, Except.pure]

set_option maxHeartbeats 1000000 in
/-- C8 (amended): for nonzero radii and an endpoint different from the
start point, the endpoint-to-center conversion raises no error (radii too
small for the chord only drive the radicand quotient negative, which the
max(0, int(...)) clamp absorbs before the square root), and every radicand
the clamp produces is nonnegative; when the endpoint equals the start
point the radicand division has a zero denominator and raises
ZeroDivisionError. -/
theorem C8_theorem (rx ry x_rot la sw : ℝ) (p q : ℝ × ℝ)
    (hrx : rx ≠ 0) (hry : ry ≠ 0) (hpq : p ≠ q) :
    (∃ pts, PathParser.generate_arc_points p rx ry x_rot la sw q = .ok pts)
    ∧ (∀ x1p y1p r, PathParser.arcRadicand rx ry x1p y1p = .ok r → 0 ≤ r) := by
  constructor
  · have key : ∀ co si dx dy : ℝ, si ^ 2 + co ^ 2 = 1 → (dx ≠ 0 ∨ dy ≠ 0) →
        rx ^ 2 * (-si * dx + co * dy) ^ 2 + ry ^ 2 * (co * dx + si * dy) ^ 2 ≠ 0 := by
      intro co si dx dy hcs hd hz
      have h1 : rx ^ 2 > 0 := by positivity
      have h2 : ry ^ 2 > 0 := by positivity
      have hx1 : (co * dx + si * dy) ^ 2 = 0 := by
        nlinarith [sq_nonneg (-si * dx + co * dy), sq_nonneg (co * dx + si * dy)]
      have hy1 : (-si * dx + co * dy) ^ 2 = 0 := by
        nlinarith [sq_nonneg (-si * dx + co * dy), sq_nonneg (co * dx + si * dy)]
      have hsum : dx ^ 2 + dy ^ 2 = 0 := by nlinarith [hcs, hx1, hy1]
      rcases hd with h | h
      · have hdx0 : dx ^ 2 = 0 := by nlinarith [sq_nonneg dx, sq_nonneg dy]
        exact h (sq_eq_zero_iff.mp hdx0)
      · have hdy0 : dy ^ 2 = 0 := by nlinarith [sq_nonneg dx, sq_nonneg dy]
        exact h (sq_eq_zero_iff.mp hdy0)
    have hd : (p.1 - q.1) / 2 ≠ 0 ∨ (p.2 - q.2) / 2 ≠ 0 := by
      by_contra hcon
      push_neg at hcon
      apply hpq
      have h1 : p.1 = q.1 := by
        have := hcon.1
        field_simp at this
        linarith
      have h2 : p.2 = q.2 := by
        have := hcon.2
        field_simp at this
        linarith
      exact Prod.ext h1 h2
    have hden := key (Real.cos (radians x_rot)) (Real.sin (radians x_rot))
      ((p.1 - q.1) / 2) ((p.2 - q.2) / 2) (Real.sin_sq_add_cos_sq (radians x_rot)) hd
    have hA : ∀ X Y : ℝ, rx ^ 2 * Y ^ 2 + ry ^ 2 * X ^ 2 ≠ 0 →
        PathParser.arcRadicand rx ry X Y =
          .ok (max 0 (pyTrunc ((rx ^ 2 * ry ^ 2 - rx ^ 2 * Y ^ 2 - ry ^ 2 * X ^ 2) /
            (rx ^ 2 * Y ^ 2 + ry ^ 2 * X ^ 2)))) := by
      intro X Y hne
      simp [PathParser.arcRadicand, arcRadicandQuot, divE, if_neg hne,
        bind, Except.bind, pure, Except.pure]
    simp only [PathParser.generate_arc_points]
    rw [hA _ _ hden]
    simp only [bind, Except.bind, divE, if_neg hry, if_neg hrx, pure, Except.pure]
    exact ⟨_, rfl⟩
  · intro x1p y1p r hr
    simp only [PathParser.arcRadicand, arcRadicandQuot, divE, bind, Except.bind,
      pure, Except.pure] at hr
    by_cases hz : rx ^ 2 * y1p ^ 2 + ry ^ 2 * x1p ^ 2 = 0
    · rw [if_pos hz] at hr
      simp at hr
    · rw [if_neg hz] at hr
      simp at hr
      rw [← hr]
      exact le_max_left 0 _

/-- C8 witness: the amended arc-conversion theorem applied to the concrete
semicircle arc from (0,0) to (10,0) with rx = ry = 5. -/
theorem C8_witness :
    (∃ pts, PathParser.generate_arc_points ((0 : ℝ), (0 : ℝ)) 5 5 0 0 1
        ((10 : ℝ), (0 : ℝ)) = .ok pts)
    ∧ (∀ x1p y1p r, PathParser.arcRadicand 5 5 x1p y1p = .ok r → 0 ≤ r) :=
  C8_theorem 5 5 0 0 1 ((0 : ℝ), (0 : ℝ)) ((10 : ℝ), (0 : ℝ))
    (by norm_num) (by norm_num) (by norm_num [Prod.ext_iff])


theorem dispatch_suffix_of_not_arc {tok : Tok} {rest rest' : List Tok} {st st' : PState}
    (hA : tok ≠ .cmd 'A') (ha : tok ≠ .cmd 'a')
    (h : PathParser.dispatch tok rest st = .ok (rest', st')) :
    rest' <:+ rest := by
  cases tok with
  | num n =>
    simp only [PathParser.dispatch, Except.ok.injEq, Prod.mk.injEq] at h
    exact h.1 ▸ List.suffix_rfl
  | cmd c =>
    simp only [PathParser.dispatch] at h
    by_cases h1 : c = 'M' ∨ c = 'm'
    · rw [if_pos h1] at h
      exact (handle_move_to_inv h).2
    rw [if_neg h1] at h
    by_cases h2 : c = 'L' ∨ c = 'l'
    · rw [if_pos h2] at h
      exact (handle_line_to_inv h).2
    rw [if_neg h2] at h
    by_cases h3 : c = 'H' ∨ c = 'h'
    · rw [if_pos h3] at h
      exact (handle_horizontal_inv h).2
    rw [if_neg h3] at h
    by_cases h4 : c = 'V' ∨ c = 'v'
    · rw [if_pos h4] at h
      exact (handle_vertical_inv h).2
    rw [if_neg h4] at h
    by_cases h5 : c = 'C' ∨ c = 'c'
    · rw [if_pos h5] at h
      exact (handle_cubic_inv h).2
    rw [if_neg h5] at h
    by_cases h6 : c = 'S' ∨ c = 's'
    · rw [if_pos h6] at h
      exact (handle_smooth_cubic_inv h).2
    rw [if_neg h6] at h
    by_cases h7 : c = 'Q' ∨ c = 'q'
    · rw [if_pos h7] at h
      exact (handle_quadratic_inv h).2
    rw [if_neg h7] at h
    by_cases h8 : c = 'T' ∨ c = 't'
    · rw [if_pos h8] at h
      exact (handle_smooth_quadratic_inv h).2
    rw [if_neg h8] at h
    by_cases h9 : c = 'A' ∨ c = 'a'
    · rcases h9 with h9 | h9
      · exact absurd (by rw [h9]) hA
      · exact absurd (by rw [h9]) ha
    rw [if_neg h9] at h
    by_cases h10 : c = 'Z' ∨ c = 'z'
    · rw [if_pos h10] at h
      unfold PathParser.handle_close_path at h
      cases hp : st.points with
      | nil =>
        rw [hp] at h
        simp at h
      | cons p ps =>
        rw [hp] at h
        simp only [Except.ok.injEq, Prod.mk.injEq] at h
        exact h.1 ▸ List.suffix_rfl
    rw [if_neg h10] at h
    simp only [Except.ok.injEq, Prod.mk.injEq] at h
    exact h.1 ▸ List.suffix_rfl

set_option maxHeartbeats 1000000 in
/-- Renderer.generate_arc_points succeeds whenever the radii are nonzero
and the endpoint differs from the start point (all checked divisions have
nonzero divisors). -/
theorem Renderer.generate_arc_points_ok (rx ry x_rot : ℝ) (la sw : ℤ) (p q : ℝ × ℝ)
    (hrx : rx ≠ 0) (hry : ry ≠ 0) (hpq : p ≠ q) :
    ∃ pts, Renderer.generate_arc_points p rx ry x_rot la sw q = .ok pts := by
  have key : ∀ co si dx dy : ℝ, si ^ 2 + co ^ 2 = 1 → (dx ≠ 0 ∨ dy ≠ 0) →
      rx ^ 2 * (-si * dx + co * dy) ^ 2 + ry ^ 2 * (co * dx + si * dy) ^ 2 ≠ 0 := by
    intro co si dx dy hcs hd hz
    have h1 : rx ^ 2 > 0 := by positivity
    have h2 : ry ^ 2 > 0 := by positivity
    have hx1 : (co * dx + si * dy) ^ 2 = 0 := by
      nlinarith [sq_nonneg (-si * dx + co * dy), sq_nonneg (co * dx + si * dy)]
    have hy1 : (-si * dx + co * dy) ^ 2 = 0 := by
      nlinarith [sq_nonneg (-si * dx + co * dy), sq_nonneg (co * dx + si * dy)]
    have hsum : dx ^ 2 + dy ^ 2 = 0 := by nlinarith [hcs, hx1, hy1]
    rcases hd with h | h
    · have hdx0 : dx ^ 2 = 0 := by nlinarith [sq_nonneg dx, sq_nonneg dy]
      exact h (sq_eq_zero_iff.mp hdx0)
    · have hdy0 : dy ^ 2 = 0 := by nlinarith [sq_nonneg dx, sq_nonneg dy]
      exact h (sq_eq_zero_iff.mp hdy0)
  have hd : (p.1 - q.1) / 2 ≠ 0 ∨ (p.2 - q.2) / 2 ≠ 0 := by
    by_contra hcon
    push_neg at hcon
    apply hpq
    have h1 : p.1 = q.1 := by
      have := hcon.1
      field_simp at this
      linarith
    have h2 : p.2 = q.2 := by
      have := hcon.2
      field_simp at this
      linarith
    exact Prod.ext h1 h2
  have hden := key (Real.cos (radians x_rot)) (Real.sin (radians x_rot))
    ((p.1 - q.1) / 2) ((p.2 - q.2) / 2) (Real.sin_sq_add_cos_sq (radians x_rot)) hd
  have hA : ∀ X Y : ℝ, rx ^ 2 * Y ^ 2 + ry ^ 2 * X ^ 2 ≠ 0 →
      Renderer.arcRadicand rx ry X Y =
        .ok (max 0 ((rx ^ 2 * ry ^ 2 - rx ^ 2 * Y ^ 2 - ry ^ 2 * X ^ 2) /
          (rx ^ 2 * Y ^ 2 + ry ^ 2 * X ^ 2))) := by
    intro X Y hne
    simp [Renderer.arcRadicand, arcRadicandQuot, divE, if_neg hne,
      bind, Except.bind, pure, Except.pure]
  simp only [Renderer.generate_arc_points]
  rw [hA _ _ hden]
  simp only [bind, Except.bind, divE, if_neg hry, if_neg hrx, pure, Except.pure]
  exact ⟨_, rfl⟩

/-- C9 counterexample: the two interpreters do not compute identical
point sequences for every path-data string.  (1) On
"M0,0 A5,5 0 0 1 10.5,20.5" PathParser.parse raises ValueError (its arc
handler converts the endpoint coordinates with int()) while the
interpreter inline in Renderer.draw_path (endpoint converted with float())
tessellates the arc and returns a point sequence.  (2) On "5 S1,2 3,4"
the stray numeric token in command position is recorded in last_command
by PathParser.parse (line 53 runs for every popped token) but not by the
inline loop (renderer.py assigns last_command only inside matched
branches), so the S gate reads "5" not in "CcSs" in one interpreter and
None in the other: PathParser.parse returns a point sequence while
draw_path raises TypeError. -/
theorem C9_counterexample :
    (PathParser.parse ("M0,0 A5,5 0 0 1 10.5,20.5") =
        .error (.valueError,
          { current_position := (0, 0), points := [(0, 0)],
            last_command := some (Tok.cmd 'M'), control_point := none })
      ∧ ∃ ps, Renderer.draw_path_points ("M0,0 A5,5 0 0 1 10.5,20.5") = .ok ps)
    ∧ ((∃ ps, PathParser.parse ("5 S1,2 3,4") = .ok ps)
      ∧ Renderer.draw_path_points ("5 S1,2 3,4") = .error (.typeError, initState)) := by
  have ht : tokenize ("M0,0 A5,5 0 0 1 10.5,20.5") =
      [Tok.cmd 'M', Tok.num ⟨false, [0], false, []⟩, Tok.num ⟨false, [0], false, []⟩,
       Tok.cmd 'A', Tok.num ⟨false, [5], false, []⟩, Tok.num ⟨false, [5], false, []⟩,
       Tok.num ⟨false, [0], false, []⟩, Tok.num ⟨false, [0], false, []⟩,
       Tok.num ⟨false, [1], false, []⟩,
       Tok.num ⟨false, [1, 0], true, [5]⟩, Tok.num ⟨false, [2, 0], true, [5]⟩] := by
    decide
  have ht2 : tokenize ("5 S1,2 3,4") =
      [Tok.num ⟨false, [5], false, []⟩, Tok.cmd 'S',
       Tok.num ⟨false, [1], false, []⟩, Tok.num ⟨false, [2], false, []⟩,
       Tok.num ⟨false, [3], false, []⟩, Tok.num ⟨false, [4], false, []⟩] := by decide
  refine ⟨⟨?_, ?_⟩, ?_, ?_⟩
  · rw [PathParser.parse, ht]
    simp [PathParser.parseTokens, PathParser.run, PathParser.dispatch,
      PathParser.handle_move_to, PathParser.handle_arc,
      popFloats, popF, popI, popTok, tokFloat, tokInt, NumLit.intVal,
      NumLit.val, digitsVal, initState, bind, Except.bind, pure, Except.pure]
  · obtain ⟨pts, hpts⟩ := Renderer.generate_arc_points_ok 5 5 0 0 1 (0 : ℝ × ℝ)
      ((10 + 5 / 10 : ℝ), (20 + 5 / 10 : ℝ)) (by norm_num) (by norm_num)
      (by
        intro hc
        rw [Prod.ext_iff] at hc
        simp at hc
        norm_num at hc)
    rw [Renderer.draw_path_points, ht]
    simp [Renderer.draw_path_tokens, Renderer.run, Renderer.dispatch, popFloats, popF,
      popI, popTok, tokFloat, tokInt, NumLit.intVal, NumLit.val, digitsVal, initState,
      bind, Except.bind, pure, Except.pure]
    rw [hpts]
    exact ⟨_, rfl⟩
  · rw [PathParser.parse, ht2]
    simp [PathParser.parseTokens, PathParser.run, PathParser.dispatch,
      PathParser.handle_smooth_cubic_bezier, smoothCubicCtrl, tokInCcSs,
      popFloats, popF, popTok, tokFloat, NumLit.val, digitsVal, initState,
      bind, Except.bind, pure, Except.pure]
  · rw [Renderer.draw_path_points, ht2]
    simp [Renderer.draw_path_tokens, Renderer.run, Renderer.dispatch,
      smoothCubicCtrl, initState, bind, Except.bind, pure, Except.pure]

/-- Renderer.dispatch agrees with PathParser.dispatch on every matched
non-arc command token, up to the Renderer branch additionally recording
last_command = cmd on success (PathParser.parse performs that assignment
in its loop instead). -/
theorem dispatch_lastcmd (c : Char) (rest : List Tok) (st : PState)
    (hcm : c ∈ cmdChars) (hA : c ≠ 'A') (ha : c ≠ 'a') :
    Renderer.dispatch (.cmd c) rest st =
      match PathParser.dispatch (.cmd c) rest st with
      | .error e => .error e
      | .ok (r, s) => .ok (r, { s with last_command := some (Tok.cmd c) }) := by
  simp only [Renderer.dispatch, PathParser.dispatch]
  by_cases h1 : c = 'M' ∨ c = 'm'
  · rw [if_pos h1, if_pos h1]
    unfold PathParser.handle_move_to
    cases hp : popFloats 2 rest with
    | error e => rfl
    | ok v =>
      obtain ⟨vals, r⟩ := v
      rcases vals with _ | ⟨x, _ | ⟨y, _ | ⟨z, w⟩⟩⟩ <;> rfl
  rw [if_neg h1, if_neg h1]
  by_cases h2 : c = 'L' ∨ c = 'l'
  · rw [if_pos h2, if_pos h2]
    unfold PathParser.handle_line_to
    cases hp : popFloats 2 rest with
    | error e => rfl
    | ok v =>
      obtain ⟨vals, r⟩ := v
      rcases vals with _ | ⟨x, _ | ⟨y, _ | ⟨z, w⟩⟩⟩ <;> rfl
  rw [if_neg h2, if_neg h2]
  by_cases h3 : c = 'H' ∨ c = 'h'
  · rw [if_pos h3, if_pos h3]
    unfold PathParser.handle_horizontal_line_to
    cases hp : popF rest with
    | error e => rfl
    | ok v => rfl
  rw [if_neg h3, if_neg h3]
  by_cases h4 : c = 'V' ∨ c = 'v'
  · rw [if_pos h4, if_pos h4]
    unfold PathParser.handle_vertical_line_to
    cases hp : popF rest with
    | error e => rfl
    | ok v => rfl
  rw [if_neg h4, if_neg h4]
  by_cases h5 : c = 'C' ∨ c = 'c'
  · rw [if_pos h5, if_pos h5]
    unfold PathParser.handle_cubic_bezier
    cases hp : popFloats 6 rest with
    | error e => rfl
    | ok v =>
      obtain ⟨vals, r⟩ := v
      rcases vals with _ | ⟨a1, _ | ⟨a2, _ | ⟨a3, _ | ⟨a4, _ | ⟨a5, _ | ⟨a6, _ | ⟨a7, w⟩⟩⟩⟩⟩⟩⟩ <;> rfl
  rw [if_neg h5, if_neg h5]
  by_cases h6 : c = 'S' ∨ c = 's'
  · rw [if_pos h6, if_pos h6]
    unfold PathParser.handle_smooth_cubic_bezier
    cases hg : smoothCubicCtrl st with
    | error e => rfl
    | ok icp =>
      cases hp : popFloats 4 rest with
      | error e => rfl
      | ok v =>
        obtain ⟨vals, r⟩ := v
        rcases vals with _ | ⟨a1, _ | ⟨a2, _ | ⟨a3, _ | ⟨a4, _ | ⟨a5, w⟩⟩⟩⟩⟩ <;> rfl
  rw [if_neg h6, if_neg h6]
  by_cases h7 : c = 'Q' ∨ c = 'q'
  · rw [if_pos h7, if_pos h7]
    unfold PathParser.handle_quadratic_bezier
    cases hp : popFloats 4 rest with
    | error e => rfl
    | ok v =>
      obtain ⟨vals, r⟩ := v
      rcases vals with _ | ⟨a1, _ | ⟨a2, _ | ⟨a3, _ | ⟨a4, _ | ⟨a5, w⟩⟩⟩⟩⟩ <;> rfl
  rw [if_neg h7, if_neg h7]
  by_cases h8 : c = 'T' ∨ c = 't'
  · rw [if_pos h8, if_pos h8]
    unfold PathParser.handle_smooth_quadratic_bezier
    cases hg : smoothQuadCtrl st with
    | error e => rfl
    | ok icp =>
      cases hp : popFloats 2 rest with
      | error e => rfl
      | ok v =>
        obtain ⟨vals, r⟩ := v
        rcases vals with _ | ⟨a1, _ | ⟨a2, _ | ⟨a3, w⟩⟩⟩ <;> rfl
  rw [if_neg h8, if_neg h8]
  by_cases h9 : c = 'A' ∨ c = 'a'
  · rcases h9 with h9 | h9
    · exact absurd h9 hA
    · exact absurd h9 ha
  rw [if_neg h9, if_neg h9]
  by_cases h10 : c = 'Z' ∨ c = 'z'
  · rw [if_pos h10, if_pos h10]
    unfold PathParser.handle_close_path
    cases hp : st.points with
    | nil => rfl
    | cons p ps => rfl
  exfalso
  simp only [cmdChars, List.mem_cons, List.not_mem_nil, or_false] at hcm
  rcases hcm with rfl | rfl | rfl | rfl | rfl | rfl | rfl | rfl | rfl | rfl | rfl | rfl |
    rfl | rfl | rfl | rfl | rfl | rfl | rfl | rfl <;> simp_all

theorem handle_move_to_rem {c : Char} {args rest r : List Tok} {st s : PState}
    (hargs : ∀ t ∈ args, ∃ n, t = Tok.num n) (hlen : args.length = 2)
    (h : PathParser.handle_move_to c (args ++ rest) st = .ok (r, s)) : r = rest := by
  rcases args with _ | ⟨t1, _ | ⟨t2, _ | ⟨t3, tl⟩⟩⟩ <;> simp at hlen
  obtain ⟨n1, rfl⟩ := hargs t1 (by simp)
  obtain ⟨n2, rfl⟩ := hargs t2 (by simp)
  simp [PathParser.handle_move_to, popFloats, popF, popTok, tokFloat,
    bind, Except.bind, pure, Except.pure] at h
  exact h.1.symm

theorem handle_line_to_rem {c : Char} {args rest r : List Tok} {st s : PState}
    (hargs : ∀ t ∈ args, ∃ n, t = Tok.num n) (hlen : args.length = 2)
    (h : PathParser.handle_line_to c (args ++ rest) st = .ok (r, s)) : r = rest := by
  rcases args with _ | ⟨t1, _ | ⟨t2, _ | ⟨t3, tl⟩⟩⟩ <;> simp at hlen
  obtain ⟨n1, rfl⟩ := hargs t1 (by simp)
  obtain ⟨n2, rfl⟩ := hargs t2 (by simp)
  simp [PathParser.handle_line_to, popFloats, popF, popTok, tokFloat,
    bind, Except.bind, pure, Except.pure] at h
  exact h.1.symm

theorem handle_horizontal_rem {c : Char} {args rest r : List Tok} {st s : PState}
    (hargs : ∀ t ∈ args, ∃ n, t = Tok.num n) (hlen : args.length = 1)
    (h : PathParser.handle_horizontal_line_to c (args ++ rest) st = .ok (r, s)) : r = rest := by
  rcases args with _ | ⟨t1, _ | ⟨t2, tl⟩⟩ <;> simp at hlen
  obtain ⟨n1, rfl⟩ := hargs t1 (by simp)
  simp [PathParser.handle_horizontal_line_to, popF, popTok, tokFloat,
    bind, Except.bind, pure, Except.pure] at h
  exact h.1.symm

theorem handle_vertical_rem {c : Char} {args rest r : List Tok} {st s : PState}
    (hargs : ∀ t ∈ args, ∃ n, t = Tok.num n) (hlen : args.length = 1)
    (h : PathParser.handle_vertical_line_to c (args ++ rest) st = .ok (r, s)) : r = rest := by
  rcases args with _ | ⟨t1, _ | ⟨t2, tl⟩⟩ <;> simp at hlen
  obtain ⟨n1, rfl⟩ := hargs t1 (by simp)
  simp [PathParser.handle_vertical_line_to, popF, popTok, tokFloat,
    bind, Except.bind, pure, Except.pure] at h
  exact h.1.symm

theorem handle_cubic_rem {c : Char} {args rest r : List Tok} {st s : PState}
    (hargs : ∀ t ∈ args, ∃ n, t = Tok.num n) (hlen : args.length = 6)
    (h : PathParser.handle_cubic_bezier c (args ++ rest) st = .ok (r, s)) : r = rest := by
  rcases args with _ | ⟨t1, _ | ⟨t2, _ | ⟨t3, _ | ⟨t4, _ | ⟨t5, _ | ⟨t6, _ | ⟨t7, tl⟩⟩⟩⟩⟩⟩⟩ <;>
    simp at hlen
  obtain ⟨n1, rfl⟩ := hargs t1 (by simp)
  obtain ⟨n2, rfl⟩ := hargs t2 (by simp)
  obtain ⟨n3, rfl⟩ := hargs t3 (by simp)
  obtain ⟨n4, rfl⟩ := hargs t4 (by simp)
  obtain ⟨n5, rfl⟩ := hargs t5 (by simp)
  obtain ⟨n6, rfl⟩ := hargs t6 (by simp)
  simp [PathParser.handle_cubic_bezier, popFloats, popF, popTok, tokFloat,
    bind, Except.bind, pure, Except.pure] at h
  exact h.1.symm

theorem handle_quadratic_rem {c : Char} {args rest r : List Tok} {st s : PState}
    (hargs : ∀ t ∈ args, ∃ n, t = Tok.num n) (hlen : args.length = 4)
    (h : PathParser.handle_quadratic_bezier c (args ++ rest) st = .ok (r, s)) : r = rest := by
  rcases args with _ | ⟨t1, _ | ⟨t2, _ | ⟨t3, _ | ⟨t4, _ | ⟨t5, tl⟩⟩⟩⟩⟩ <;> simp at hlen
  obtain ⟨n1, rfl⟩ := hargs t1 (by simp)
  obtain ⟨n2, rfl⟩ := hargs t2 (by simp)
  obtain ⟨n3, rfl⟩ := hargs t3 (by simp)
  obtain ⟨n4, rfl⟩ := hargs t4 (by simp)
  simp [PathParser.handle_quadratic_bezier, popFloats, popF, popTok, tokFloat,
    bind, Except.bind, pure, Except.pure] at h
  exact h.1.symm

theorem handle_smooth_cubic_rem {c : Char} {args rest r : List Tok} {st s : PState}
    (hargs : ∀ t ∈ args, ∃ n, t = Tok.num n) (hlen : args.length = 4)
    (h : PathParser.handle_smooth_cubic_bezier c (args ++ rest) st = .ok (r, s)) : r = rest := by
  rcases args with _ | ⟨t1, _ | ⟨t2, _ | ⟨t3, _ | ⟨t4, _ | ⟨t5, tl⟩⟩⟩⟩⟩ <;> simp at hlen
  obtain ⟨n1, rfl⟩ := hargs t1 (by simp)
  obtain ⟨n2, rfl⟩ := hargs t2 (by simp)
  obtain ⟨n3, rfl⟩ := hargs t3 (by simp)
  obtain ⟨n4, rfl⟩ := hargs t4 (by simp)
  unfold PathParser.handle_smooth_cubic_bezier at h
  cases hg : smoothCubicCtrl st with
  | error e =>
    rw [hg] at h
    simp at h
  | ok icp =>
    rw [hg] at h
    simp [popFloats, popF, popTok, tokFloat, bind, Except.bind, pure, Except.pure] at h
    exact h.1.symm

theorem handle_smooth_quadratic_rem {c : Char} {args rest r : List Tok} {st s : PState}
    (hargs : ∀ t ∈ args, ∃ n, t = Tok.num n) (hlen : args.length = 2)
    (h : PathParser.handle_smooth_quadratic_bezier c (args ++ rest) st = .ok (r, s)) :
    r = rest := by
  rcases args with _ | ⟨t1, _ | ⟨t2, _ | ⟨t3, tl⟩⟩⟩ <;> simp at hlen
  obtain ⟨n1, rfl⟩ := hargs t1 (by simp)
  obtain ⟨n2, rfl⟩ := hargs t2 (by simp)
  unfold PathParser.handle_smooth_quadratic_bezier at h
  cases hg : smoothQuadCtrl st with
  | error e =>
    rw [hg] at h
    simp at h
  | ok icp =>
    rw [hg] at h
    simp [popFloats, popF, popTok, tokFloat, bind, Except.bind, pure, Except.pure] at h
    exact h.1.symm

/-- Token lists in which every token in command position is a command
letter followed by exactly its arity of numeric arguments (no stray
numeric tokens falling through the dispatch chain). -/
inductive WFToks : List Tok → Prop where
  | nil : WFToks []
  | step (c : Char) (k : Nat) (args rest : List Tok) :
      cmdArity c = some k → args.length = k →
      (∀ t ∈ args, ∃ n, t = Tok.num n) → WFToks rest →
      WFToks (.cmd c :: (args ++ rest))

theorem dispatch_wf_rem {c : Char} {k : Nat} {args rest r : List Tok} {st s : PState}
    (hk : cmdArity c = some k) (hlen : args.length = k)
    (hargs : ∀ t ∈ args, ∃ n, t = Tok.num n)
    (hA : c ≠ 'A') (ha : c ≠ 'a')
    (h : PathParser.dispatch (.cmd c) (args ++ rest) st = .ok (r, s)) : r = rest := by
  simp only [PathParser.dispatch] at h
  unfold cmdArity at hk
  by_cases h1 : c = 'M' ∨ c = 'm' ∨ c = 'L' ∨ c = 'l' ∨ c = 'T' ∨ c = 't'
  · rw [if_pos h1] at hk
    have hk2 : k = 2 := by simpa using hk.symm
    subst hk2
    have hMm : (c = 'M' ∨ c = 'm') ∨ (c = 'L' ∨ c = 'l') ∨ (c = 'T' ∨ c = 't') := by tauto
    rcases hMm with hg | hg | hg
    · rw [if_pos hg] at h
      exact handle_move_to_rem hargs hlen h
    · have hne : ¬(c = 'M' ∨ c = 'm') := by
        rcases hg with rfl | rfl <;> simp
      rw [if_neg hne, if_pos hg] at h
      exact handle_line_to_rem hargs hlen h
    · have hne1 : ¬(c = 'M' ∨ c = 'm') := by rcases hg with rfl | rfl <;> simp
      have hne2 : ¬(c = 'L' ∨ c = 'l') := by rcases hg with rfl | rfl <;> simp
      have hne3 : ¬(c = 'H' ∨ c = 'h') := by rcases hg with rfl | rfl <;> simp
      have hne4 : ¬(c = 'V' ∨ c = 'v') := by rcases hg with rfl | rfl <;> simp
      have hne5 : ¬(c = 'C' ∨ c = 'c') := by rcases hg with rfl | rfl <;> simp
      have hne6 : ¬(c = 'S' ∨ c = 's') := by rcases hg with rfl | rfl <;> simp
      have hne7 : ¬(c = 'Q' ∨ c = 'q') := by rcases hg with rfl | rfl <;> simp
      rw [if_neg hne1, if_neg hne2, if_neg hne3, if_neg hne4, if_neg hne5,
        if_neg hne6, if_neg hne7, if_pos hg] at h
      exact handle_smooth_quadratic_rem hargs hlen h
  rw [if_neg h1] at hk
  by_cases h2 : c = 'H' ∨ c = 'h' ∨ c = 'V' ∨ c = 'v'
  · rw [if_pos h2] at hk
    have hk2 : k = 1 := by simpa using hk.symm
    subst hk2
    have hg : (c = 'H' ∨ c = 'h') ∨ (c = 'V' ∨ c = 'v') := by tauto
    have hne1 : ¬(c = 'M' ∨ c = 'm') := by
      rcases hg with (rfl | rfl) | (rfl | rfl) <;> simp
    have hne2 : ¬(c = 'L' ∨ c = 'l') := by
      rcases hg with (rfl | rfl) | (rfl | rfl) <;> simp
    rcases hg with hg | hg
    · rw [if_neg hne1, if_neg hne2, if_pos hg] at h
      exact handle_horizontal_rem hargs hlen h
    · have hne3 : ¬(c = 'H' ∨ c = 'h') := by rcases hg with rfl | rfl <;> simp
      rw [if_neg hne1, if_neg hne2, if_neg hne3, if_pos hg] at h
      exact handle_vertical_rem hargs hlen h
  rw [if_neg h2] at hk
  by_cases h3 : c = 'Q' ∨ c = 'q' ∨ c = 'S' ∨ c = 's'
  · rw [if_pos h3] at hk
    have hk2 : k = 4 := by simpa using hk.symm
    subst hk2
    have hg : (c = 'Q' ∨ c = 'q') ∨ (c = 'S' ∨ c = 's') := by tauto
    have hne1 : ¬(c = 'M' ∨ c = 'm') := by
      rcases hg with (rfl | rfl) | (rfl | rfl) <;> simp
    have hne2 : ¬(c = 'L' ∨ c = 'l') := by
      rcases hg with (rfl | rfl) | (rfl | rfl) <;> simp
    have hne3 : ¬(c = 'H' ∨ c = 'h') := by
      rcases hg with (rfl | rfl) | (rfl | rfl) <;> simp
    have hne4 : ¬(c = 'V' ∨ c = 'v') := by
      rcases hg with (rfl | rfl) | (rfl | rfl) <;> simp
    have hne5 : ¬(c = 'C' ∨ c = 'c') := by
      rcases hg with (rfl | rfl) | (rfl | rfl) <;> simp
    rcases hg with hg | hg
    · have hne6 : ¬(c = 'S' ∨ c = 's') := by rcases hg with rfl | rfl <;> simp
      rw [if_neg hne1, if_neg hne2, if_neg hne3, if_neg hne4, if_neg hne5,
        if_neg hne6, if_pos hg] at h
      exact handle_quadratic_rem hargs hlen h
    · rw [if_neg hne1, if_neg hne2, if_neg hne3, if_neg hne4, if_neg hne5,
        if_pos hg] at h
      exact handle_smooth_cubic_rem hargs hlen h
  rw [if_neg h3] at hk
  by_cases h4 : c = 'C' ∨ c = 'c'
  · rw [if_pos h4] at hk
    have hk2 : k = 6 := by simpa using hk.symm
    subst hk2
    have hne1 : ¬(c = 'M' ∨ c = 'm') := by rcases h4 with rfl | rfl <;> simp
    have hne2 : ¬(c = 'L' ∨ c = 'l') := by rcases h4 with rfl | rfl <;> simp
    have hne3 : ¬(c = 'H' ∨ c = 'h') := by rcases h4 with rfl | rfl <;> simp
    have hne4 : ¬(c = 'V' ∨ c = 'v') := by rcases h4 with rfl | rfl <;> simp
    rw [if_neg hne1, if_neg hne2, if_neg hne3, if_neg hne4, if_pos h4] at h
    exact handle_cubic_rem hargs hlen h
  rw [if_neg h4] at hk
  by_cases h5 : c = 'A' ∨ c = 'a'
  · rcases h5 with h5 | h5
    · exact absurd h5 hA
    · exact absurd h5 ha
  rw [if_neg h5] at hk
  by_cases h6 : c = 'Z' ∨ c = 'z'
  · rw [if_pos h6] at hk
    have hk2 : k = 0 := by simpa using hk.symm
    subst hk2
    have hargs0 : args = [] := List.length_eq_zero.mp hlen
    subst hargs0
    have hne1 : ¬(c = 'M' ∨ c = 'm') := by rcases h6 with rfl | rfl <;> simp
    have hne2 : ¬(c = 'L' ∨ c = 'l') := by rcases h6 with rfl | rfl <;> simp
    have hne3 : ¬(c = 'H' ∨ c = 'h') := by rcases h6 with rfl | rfl <;> simp
    have hne4 : ¬(c = 'V' ∨ c = 'v') := by rcases h6 with rfl | rfl <;> simp
    have hne5 : ¬(c = 'C' ∨ c = 'c') := by rcases h6 with rfl | rfl <;> simp
    have hne6 : ¬(c = 'S' ∨ c = 's') := by rcases h6 with rfl | rfl <;> simp
    have hne7 : ¬(c = 'Q' ∨ c = 'q') := by rcases h6 with rfl | rfl <;> simp
    have hne8 : ¬(c = 'T' ∨ c = 't') := by rcases h6 with rfl | rfl <;> simp
    have hne9 : ¬(c = 'A' ∨ c = 'a') := by rcases h6 with rfl | rfl <;> simp
    rw [if_neg hne1, if_neg hne2, if_neg hne3, if_neg hne4, if_neg hne5, if_neg hne6,
      if_neg hne7, if_neg hne8, if_neg hne9, if_pos h6] at h
    unfold PathParser.handle_close_path at h
    cases hp : st.points with
    | nil =>
      rw [hp] at h
      simp at h
    | cons p ps =>
      rw [hp] at h
      simp only [Except.ok.injEq, Prod.mk.injEq] at h
      exact h.1.symm ▸ rfl
  rw [if_neg h6] at hk
  exact absurd hk (by simp)

theorem cmdArity_mem {c : Char} {k : Nat} (hk : cmdArity c = some k) : c ∈ cmdChars := by
  unfold cmdArity at hk
  by_cases h1 : c = 'M' ∨ c = 'm' ∨ c = 'L' ∨ c = 'l' ∨ c = 'T' ∨ c = 't'
  · rcases h1 with rfl | rfl | rfl | rfl | rfl | rfl <;> simp [cmdChars]
  rw [if_neg h1] at hk
  by_cases h2 : c = 'H' ∨ c = 'h' ∨ c = 'V' ∨ c = 'v'
  · rcases h2 with rfl | rfl | rfl | rfl <;> simp [cmdChars]
  rw [if_neg h2] at hk
  by_cases h3 : c = 'Q' ∨ c = 'q' ∨ c = 'S' ∨ c = 's'
  · rcases h3 with rfl | rfl | rfl | rfl <;> simp [cmdChars]
  rw [if_neg h3] at hk
  by_cases h4 : c = 'C' ∨ c = 'c'
  · rcases h4 with rfl | rfl <;> simp [cmdChars]
  rw [if_neg h4] at hk
  by_cases h5 : c = 'A' ∨ c = 'a'
  · rcases h5 with rfl | rfl <;> simp [cmdChars]
  rw [if_neg h5] at hk
  by_cases h6 : c = 'Z' ∨ c = 'z'
  · rcases h6 with rfl | rfl <;> simp [cmdChars]
  rw [if_neg h6] at hk
  exact absurd hk (by simp)

theorem run_eq_wf (fuel : Nat) :
    ∀ (toks : List Tok) (st : PState), WFToks toks →
      (∀ t ∈ toks, t ≠ .cmd 'A' ∧ t ≠ .cmd 'a') →
      Renderer.run fuel toks st = PathParser.run fuel toks st := by
  induction fuel with
  | zero =>
    intro toks st _ _
    cases toks <;> rfl
  | succ fuel ih =>
    intro toks st hwf hA
    cases hwf with
    | nil => rfl
    | step c k args rest hk hlen hargs hrest =>
      obtain ⟨hA1, hA2⟩ := hA (.cmd c) (List.mem_cons_self _ _)
      have hcA : c ≠ 'A' := fun hc => hA1 (by rw [hc])
      have hca : c ≠ 'a' := fun hc => hA2 (by rw [hc])
      rw [Renderer.run, PathParser.run,
        dispatch_lastcmd c (args ++ rest) st (cmdArity_mem hk) hcA hca]
      cases hd : PathParser.dispatch (.cmd c) (args ++ rest) st with
      | error e => rfl
      | ok v =>
        obtain ⟨r, s⟩ := v
        have hr : r = rest := dispatch_wf_rem hk hlen hargs hcA hca hd
        subst hr
        simp only
        exact ih r _ hrest
          (fun t ht => hA t (List.mem_cons_of_mem _ (List.mem_append_right _ ht)))

/-- C9 (amended): for every path-data string containing no A/a command and
no stray tokens (every command letter is followed by exactly its arity of
numeric arguments), the point sequence computed by the interpreter inline
in Renderer.draw_path is identical to the one returned by
PathParser.parse.  Outside these conditions the interpreters can diverge:
the arc branches differ in parameter conversion and radicand arithmetic,
and a stray numeric token updates last_command only in PathParser. -/
theorem C9_theorem (d : String) (hwf : WFToks (tokenize d))
    (hA : ∀ t ∈ tokenize d, t ≠ Tok.cmd 'A' ∧ t ≠ Tok.cmd 'a') :
    Renderer.draw_path_points d = PathParser.parse d := by
  unfold Renderer.draw_path_points PathParser.parse
  unfold Renderer.draw_path_tokens PathParser.parseTokens
  rw [run_eq_wf (tokenize d).length (tokenize d) initState hwf hA]

/-- C9 witness: the two interpreters agree on the concrete well-formed
arc-free path "M0,0 L10,0 Z". -/
theorem C9_witness :
    Renderer.draw_path_points ("M0,0 L10,0 Z") = PathParser.parse ("M0,0 L10,0 Z") :=
  C9_theorem ("M0,0 L10,0 Z")
    (by
      have ht : tokenize ("M0,0 L10,0 Z") =
          [Tok.cmd 'M', Tok.num ⟨false, [0], false, []⟩, Tok.num ⟨false, [0], false, []⟩,
           Tok.cmd 'L', Tok.num ⟨false, [1, 0], false, []⟩, Tok.num ⟨false, [0], false, []⟩,
           Tok.cmd 'Z'] := by decide
      rw [ht]
      have h3 : WFToks [Tok.cmd 'Z'] :=
        WFToks.step 'Z' 0 [] [] rfl rfl (by intro t ht0; simp at ht0) WFToks.nil
      have h2 : WFToks [Tok.cmd 'L', Tok.num ⟨false, [1, 0], false, []⟩,
          Tok.num ⟨false, [0], false, []⟩, Tok.cmd 'Z'] :=
        WFToks.step 'L' 2 [Tok.num ⟨false, [1, 0], false, []⟩, Tok.num ⟨false, [0], false, []⟩]
          [Tok.cmd 'Z'] rfl rfl
          (by
            intro t ht0
            fin_cases ht0 <;> exact ⟨_, rfl⟩)
          h3
      exact WFToks.step 'M' 2
        [Tok.num ⟨false, [0], false, []⟩, Tok.num ⟨false, [0], false, []⟩]
        [Tok.cmd 'L', Tok.num ⟨false, [1, 0], false, []⟩, Tok.num ⟨false, [0], false, []⟩,
         Tok.cmd 'Z'] rfl rfl
        (by
          intro t ht0
          fin_cases ht0 <;> exact ⟨_, rfl⟩)
        h2)
    (by decide)

end SVG
